import Mathlib

/-!
Verification of the MTR/inventory Odoo module (`addons/mtr_module/models/models.py`).

The development shallowly embeds the logic-bearing parts of the module:
value coercion helpers (`_to_float`, `_to_int`, `_to_date`), the header
normalizer (`_normalize_header`), the MTR upsert (`MtrData.upsert_from_payload`),
the inventory import wizard (`InventoryImportWizard.action_import` together with
its CSV/XLSX readers and row mapper), and the latest-match join view
(`MtrInventoryJoinReport.init`).

Modelling conventions:
* Python runtime values that can flow through the payloads and spreadsheet
  cells are the inductive `PyVal`; Python floats are modelled as exact
  rationals (`ℚ`), so non-finite floats and binary rounding are outside the
  model. `datetime.date`/`datetime.datetime` cell values are merged into the
  single `PyVal.date` constructor.
* The datastore is explicit state: a list of records plus a fresh-id counter.
* Raised exceptions are `Except`/error results; the state component of each
  operation's result is the table contents after the call, thus "no partial
  write" is the statement that the state is returned unchanged.
* Library behaviour the repository calls into (the `csv` module's row lexer,
  `openpyxl`'s cell iterator, base64) is taken as the input boundary: a file is
  modelled by the row/cell tables those libraries would hand to the
  repository's code, and everything downstream of that boundary is embedded
  from the source.
-/

namespace MtrSpec

/-- Calendar date, as produced by `datetime.date(year, month, day)`. -/
structure PyDate where
  year : Nat
  month : Nat
  day : Nat
deriving DecidableEq, Repr

/-- Python runtime values reachable in the module's payloads and parsed cells.
Floats are modelled as exact rationals; `date` stands for the
`datetime.date`/`datetime.datetime` values openpyxl produces (a datetime is
narrowed to its date by `_to_date`); `strlist` is the list-of-strings value the
`csv.DictReader` rest key can produce. -/
inductive PyVal where
  | none
  | bool (b : Bool)
  | int (n : Int)
  | float (q : ℚ)
  | str (s : String)
  | date (d : PyDate)
  | strlist (xs : List String)
deriving DecidableEq, Repr

/-- A payload argument: either a Python dict (modelled as an ordered
association list with string keys) or some non-dict value. -/
inductive PyObj where
  | val (v : PyVal)
  | dict (entries : List (String × PyVal))
deriving DecidableEq, Repr

/-- Python truthiness (`bool(v)`) for the modelled values. -/
def pyTruthy : PyVal → Bool
  | .none => false
  | .bool b => b
  | .int n => n ≠ 0
  | .float q => q ≠ 0
  | .str s => s ≠ ""
  | .date _ => true
  | .strlist xs => xs ≠ []

/-- Python `x or y`: `x` if truthy, else `y`. -/
def pyOr (x y : PyVal) : PyVal :=
  if pyTruthy x then x else y

/-- `d.get(k)` on a dict literal built from `entries` (later duplicate keys
overwrite earlier ones, hence the right-most binding wins); absent keys give
`None`. -/
def pyGet (entries : List (String × PyVal)) (k : String) : PyVal :=
  match entries.reverse.find? (fun e => e.1 = k) with
  | some e => e.2
  | none => PyVal.none

/-- Characters stripped by Python `str.strip()` (the ASCII whitespace set;
code points 32, 9, 10, 13, 11, 12). -/
def pyIsSpace (c : Char) : Bool :=
  c.toNat = 32 || c.toNat = 9 || c.toNat = 10 || c.toNat = 13 ||
  c.toNat = 11 || c.toNat = 12

/-- Drop the longest run of `p`-characters from both ends of a character list
(the skeleton of Python's `str.strip`). -/
def pyStripList (p : Char → Bool) (l : List Char) : List Char :=
  ((l.dropWhile p).reverse.dropWhile p).reverse

/-- Python `s.strip()` (whitespace variant). -/
def pyStrip (s : String) : String :=
  String.mk (pyStripList pyIsSpace s.data)

/-- ASCII lower-casing of one character, as `str.lower()` acts on the ASCII
range (65–90 map to 97–122). Non-ASCII case mappings are not modelled; the
header normalizer replaces every non-`[a-z0-9]` character by an underscore
afterwards, which absorbs them. -/
def pyLowerChar (c : Char) : Char :=
  if 65 ≤ c.toNat && c.toNat ≤ 90 then Char.ofNat (c.toNat + 32) else c

/-- Python `s.lower()` on the ASCII range. -/
def pyLower (s : String) : String :=
  String.mk (s.data.map pyLowerChar)

/-- Is `c` in the regex class `[a-z0-9]` (code points 97–122 and 48–57)? -/
def isLowerAlnum (c : Char) : Bool :=
  (97 ≤ c.toNat && c.toNat ≤ 122) || (48 ≤ c.toNat && c.toNat ≤ 57)

/-- One pass of `re.sub(r"[^a-z0-9]+", "_", ·)`: every maximal run of
non-`[a-z0-9]` characters becomes a single underscore. The flag records
whether we are inside such a run. -/
def collapseRuns (inRun : Bool) : List Char → List Char
  | [] => []
  | c :: rest =>
    if isLowerAlnum c then c :: collapseRuns false rest
    else if inRun then collapseRuns true rest
    else '_' :: collapseRuns true rest

/-- Embedding of `_normalize_header` (models.py lines 13–15):
`re.sub(r"[^a-z0-9]+", "_", value.strip().lower()).strip("_")`. -/
def normalize_header (value : String) : String :=
  String.mk (pyStripList (fun c => c = '_')
    (collapseRuns false ((pyStripList pyIsSpace value.data).map pyLowerChar)))

/-- `_normalize_header` as applied to a possibly-missing key: the source reads
`(value or "").strip()...`, so `None` behaves like the empty string. -/
def normalize_header_key (value : Option String) : String :=
  normalize_header (value.getD "")

/-- Digit predicate for code points 48–57, matching `\d` over ASCII input. -/
def isDigit (c : Char) : Bool :=
  48 ≤ c.toNat && c.toNat ≤ 57

/-- Numeric value of an ASCII digit. -/
def digitVal (c : Char) : Nat := c.toNat - 48

/-- Value of a digit string read in base 10. -/
def digitsToNat (ds : List Char) : Nat :=
  ds.foldl (fun n c => 10 * n + digitVal c) 0

/-- Optional leading sign of a Python numeric literal; `true` means negative. -/
def parseSign : List Char → Bool × List Char
  | '+' :: r => (false, r)
  | '-' :: r => (true, r)
  | l => (false, l)

/-- Mantissa of a Python float literal: `d+ [. d*] | . d+`, value plus the
unread remainder. -/
def parseMantissa (l : List Char) : Option (ℚ × List Char) :=
  let ip := l.takeWhile isDigit
  let r := l.dropWhile isDigit
  match r with
  | '.' :: r2 =>
    let fp := r2.takeWhile isDigit
    let r3 := r2.dropWhile isDigit
    if ip = [] && fp = [] then none
    else some ((digitsToNat ip : ℚ) + (digitsToNat fp : ℚ) / (10 : ℚ) ^ fp.length, r3)
  | _ =>
    if ip = [] then none else some ((digitsToNat ip : ℚ), r)

/-- The `float(s)` constructor on an already-stripped string: optional sign,
mantissa, optional exponent; anything else raises `ValueError`, modelled as
`none`. Non-finite spellings (`inf`, `nan`) and digit-group underscores are
outside the rational model and also map to `none`. -/
def float_of_string (s : String) : Option ℚ :=
  let (neg, r1) := parseSign s.data
  match parseMantissa r1 with
  | none => none
  | some (m, r2) =>
    let signed : ℚ := if neg then -m else m
    match r2 with
    | [] => some signed
    | c :: r3 =>
      if c = 'e' || c = 'E' then
        let (eneg, r4) := parseSign r3
        let ed := r4.takeWhile isDigit
        let r5 := r4.dropWhile isDigit
        if ed = [] || r5 ≠ [] then none
        else some (if eneg then signed / (10 : ℚ) ^ digitsToNat ed
                   else signed * (10 : ℚ) ^ digitsToNat ed)
      else none

/-- Rendering of a float, `str(q)`; Python's shortest-roundtrip repr is
approximated by printing the integer part with `.0`, or the rational
otherwise (the exact spelling is never observable in the verified claims). -/
def floatToString (q : ℚ) : String :=
  if q.den = 1 then toString q.num ++ ".0" else toString q

/-- Zero-padded decimal rendering. -/
def natPad (width n : Nat) : String :=
  let s := toString n
  String.mk (List.replicate (width - s.length) '0') ++ s

/-- `str(datetime.date(y, m, d))`, i.e. ISO `YYYY-MM-DD`. -/
def dateToString (d : PyDate) : String :=
  natPad 4 d.year ++ "-" ++ natPad 2 d.month ++ "-" ++ natPad 2 d.day

/-- Python `str(v)` for the modelled values. -/
def pyStr : PyVal → String
  | .none => "None"
  | .bool b => if b then "True" else "False"
  | .int n => toString n
  | .float q => floatToString q
  | .str s => s
  | .date d => dateToString d
  | .strlist xs =>
    "[" ++ String.intercalate ", " (xs.map (fun x => "\x27" ++ x ++ "\x27")) ++ "]"

/-- `s.replace(",", "")` as `_to_float` uses it: every comma is deleted
(replacing a one-character pattern by the empty string is exactly a
filter). -/
def removeCommas (s : String) : String :=
  String.mk (s.data.filter (fun c => !(c = ',')))

/-- Embedding of `_to_float` (models.py lines 18–29). `value in (None, "")`
only equates `None` and the empty string; Python bools are `int` subclasses,
so they pass the `isinstance(value, (int, float))` test. Unparsable strings
degrade to `none` (the source's `False`). -/
def to_float (value : PyVal) : Option ℚ :=
  if value = PyVal.none ∨ value = PyVal.str "" then none
  else
    match value with
    | .bool b => some (if b then 1 else 0)
    | .int n => some (n : ℚ)
    | .float q => some q
    | v =>
      let cleaned := removeCommas (pyStrip (pyStr v))
      if cleaned = "" then none
      else float_of_string cleaned

/-- `int(q)` truncates toward zero. -/
def ratTruncToInt (q : ℚ) : Int :=
  if 0 ≤ q then ⌊q⌋ else -⌊-q⌋

/-- Embedding of `_to_int` (models.py lines 48–52): delegate to `_to_float`,
then truncate. -/
def to_int (value : PyVal) : Option Int :=
  (to_float value).map ratTruncToInt

/-- Gregorian leap-year rule used by `datetime`. -/
def leapYear (y : Nat) : Bool :=
  y % 4 = 0 && (y % 100 ≠ 0 || y % 400 = 0)

/-- Number of days in a month, as validated by the `datetime` constructor. -/
def daysInMonth (y m : Nat) : Nat :=
  if m = 2 then (if leapYear y then 29 else 28)
  else if m = 4 || m = 6 || m = 9 || m = 11 then 30
  else 31

/-- The `datetime.date` constructor's validity check (`MINYEAR = 1`,
`MAXYEAR = 9999`); an invalid combination raises `ValueError`, which
`_to_date` catches and treats as a failed format. -/
def mkValidDate (y m d : Nat) : Option PyDate :=
  if 1 ≤ y && y ≤ 9999 && 1 ≤ m && m ≤ 12 && 1 ≤ d && d ≤ daysInMonth y m then
    some ⟨y, m, d⟩
  else none

/-- `strptime`'s `%Y` directive: exactly four digits. -/
def parseYear4 : List Char → Option (Nat × List Char)
  | a :: b :: c :: d :: r =>
    if isDigit a && isDigit b && isDigit c && isDigit d then
      some (digitVal a * 1000 + digitVal b * 100 + digitVal c * 10 + digitVal d, r)
    else none
  | _ => none

/-- `strptime`'s `%y` directive: exactly two digits; 0–68 map to 2000–2068 and
69–99 to 1969–1999 (CPython's century pivot). -/
def parseYear2 : List Char → Option (Nat × List Char)
  | a :: b :: r =>
    if isDigit a && isDigit b then
      let y := digitVal a * 10 + digitVal b
      some (if y ≤ 68 then y + 2000 else y + 1900, r)
    else none
  | _ => none

/-- `strptime`'s `%m` directive, the regex alternation `1[0-2]|0[1-9]|[1-9]`
tried in that order. -/
def parseMonth2 : List Char → Option (Nat × List Char)
  | '1' :: c :: r =>
    if 48 ≤ c.toNat && c.toNat ≤ 50 then some (10 + digitVal c, r)
    else some (1, c :: r)
  | '0' :: c :: r =>
    if 49 ≤ c.toNat && c.toNat ≤ 57 then some (digitVal c, r) else none
  | c :: r =>
    if 49 ≤ c.toNat && c.toNat ≤ 57 then some (digitVal c, r) else none
  | [] => none

/-- `strptime`'s `%d` directive, the regex alternation
`3[01]|[12]\d|0[1-9]|[1-9]` tried in that order. -/
def parseDay2 : List Char → Option (Nat × List Char)
  | '3' :: c :: r =>
    if c.toNat = 48 || c.toNat = 49 then some (30 + digitVal c, r)
    else some (3, c :: r)
  | a :: b :: r =>
    if (a.toNat = 49 || a.toNat = 50) && isDigit b then
      some (digitVal a * 10 + digitVal b, r)
    else if a.toNat = 48 && 49 ≤ b.toNat && b.toNat ≤ 57 then
      some (digitVal b, r)
    else if 49 ≤ a.toNat && a.toNat ≤ 57 then
      some (digitVal a, b :: r)
    else none
  | [a] =>
    if 49 ≤ a.toNat && a.toNat ≤ 57 then some (digitVal a, []) else none
  | [] => none

/-- `datetime.strptime(text, "%Y-%m-%d").date()`: whole-string match plus
date validation. -/
def fmtYmd (cs : List Char) : Option PyDate :=
  match parseYear4 cs with
  | none => none
  | some (y, r1) =>
    match r1 with
    | '-' :: r2 =>
      match parseMonth2 r2 with
      | none => none
      | some (m, r3) =>
        match r3 with
        | '-' :: r4 =>
          match parseDay2 r4 with
          | none => none
          | some (d, r5) => if r5 = [] then mkValidDate y m d else none
        | _ => none
    | _ => none

/-- `datetime.strptime(text, "%m/%d/%Y").date()`. -/
def fmtMdY4 (cs : List Char) : Option PyDate :=
  match parseMonth2 cs with
  | none => none
  | some (m, r1) =>
    match r1 with
    | '/' :: r2 =>
      match parseDay2 r2 with
      | none => none
      | some (d, r3) =>
        match r3 with
        | '/' :: r4 =>
          match parseYear4 r4 with
          | none => none
          | some (y, r5) => if r5 = [] then mkValidDate y m d else none
        | _ => none
    | _ => none

/-- `datetime.strptime(text, "%m/%d/%y").date()`. -/
def fmtMdY2 (cs : List Char) : Option PyDate :=
  match parseMonth2 cs with
  | none => none
  | some (m, r1) =>
    match r1 with
    | '/' :: r2 =>
      match parseDay2 r2 with
      | none => none
      | some (d, r3) =>
        match r3 with
        | '/' :: r4 =>
          match parseYear2 r4 with
          | none => none
          | some (y, r5) => if r5 = [] then mkValidDate y m d else none
        | _ => none
    | _ => none

/-- `datetime.strptime(text, "%d-%m-%Y").date()`. -/
def fmtDmY4 (cs : List Char) : Option PyDate :=
  match parseDay2 cs with
  | none => none
  | some (d, r1) =>
    match r1 with
    | '-' :: r2 =>
      match parseMonth2 r2 with
      | none => none
      | some (m, r3) =>
        match r3 with
        | '-' :: r4 =>
          match parseYear4 r4 with
          | none => none
          | some (y, r5) => if r5 = [] then mkValidDate y m d else none
        | _ => none
    | _ => none

/-- The format list of `_to_date`, in source order:
`("%Y-%m-%d", "%m/%d/%Y", "%m/%d/%y", "%d-%m-%Y")`. -/
def strptimeFormats : List (List Char → Option PyDate) :=
  [fmtYmd, fmtMdY4, fmtMdY2, fmtDmY4]

/-- The `for fmt in (...): try ... except ValueError: continue` loop: first
format that parses wins. -/
def tryFormatsFrom : List (List Char → Option PyDate) → List Char → Option PyDate
  | [], _ => none
  | f :: fs, cs =>
    match f cs with
    | some d => some d
    | none => tryFormatsFrom fs cs

/-- Embedding of `_to_date` (models.py lines 32–45). The membership test
`value in (None, "", False)` uses Python `==`, which equates `False` with the
numbers `0` and `0.0`; datetime-like values are narrowed to a date; other
values are stringified, stripped, and tried against the four formats. -/
def to_date (value : PyVal) : Option PyDate :=
  if value = PyVal.none ∨ value = PyVal.str "" ∨ value = PyVal.bool false ∨
     value = PyVal.int 0 ∨ value = PyVal.float 0 then none
  else
    match value with
    | .date d => some d
    | v => tryFormatsFrom strptimeFormats (pyStrip (pyStr v)).data

/-! ### Facts about the header normalizer -/

/-- Well-formedness of a collapsed character list: every character is in
`[a-z0-9]` or an underscore, and no underscore follows a non-alphanumeric
character (the flag records whether the previous character was part of a
non-alphanumeric run). -/
def cleanRun (prevU : Bool) : List Char → Bool
  | [] => true
  | c :: rest =>
    if isLowerAlnum c then cleanRun false rest
    else decide (c = '_') && !prevU && cleanRun true rest

lemma collapseRuns_cons_alnum (b : Bool) (c : Char) (rest : List Char)
    (h : isLowerAlnum c = true) :
    collapseRuns b (c :: rest) = c :: collapseRuns false rest := by
  simp [collapseRuns, h]

lemma collapseRuns_cons_other_true (c : Char) (rest : List Char)
    (h : isLowerAlnum c = false) :
    collapseRuns true (c :: rest) = collapseRuns true rest := by
  simp [collapseRuns, h]

lemma collapseRuns_cons_other_false (c : Char) (rest : List Char)
    (h : isLowerAlnum c = false) :
    collapseRuns false (c :: rest) = '_' :: collapseRuns true rest := by
  simp [collapseRuns, h]

lemma cleanRun_cons_alnum (b : Bool) (c : Char) (rest : List Char)
    (h : isLowerAlnum c = true) :
    cleanRun b (c :: rest) = cleanRun false rest := by
  simp [cleanRun, h]

lemma cleanRun_cons_other (b : Bool) (c : Char) (rest : List Char)
    (h : isLowerAlnum c = false) :
    cleanRun b (c :: rest) = (decide (c = '_') && !b && cleanRun true rest) := by
  simp [cleanRun, h]

lemma mem_collapseRuns :
    ∀ (l : List Char) (b : Bool) (c : Char), c ∈ collapseRuns b l →
      isLowerAlnum c = true ∨ c = '_' := by
  intro l
  induction l with
  | nil => intro b c h; simp [collapseRuns] at h
  | cons a rest ih =>
    intro b c h
    cases ha : isLowerAlnum a with
    | true =>
      rw [collapseRuns_cons_alnum b a rest ha] at h
      rcases List.mem_cons.mp h with h | h
      · exact Or.inl (h ▸ ha)
      · exact ih false c h
    | false =>
      cases b with
      | true =>
        rw [collapseRuns_cons_other_true a rest ha] at h
        exact ih true c h
      | false =>
        rw [collapseRuns_cons_other_false a rest ha] at h
        rcases List.mem_cons.mp h with h | h
        · exact Or.inr h
        · exact ih true c h

lemma cleanRun_collapseRuns :
    ∀ (l : List Char) (b : Bool), cleanRun b (collapseRuns b l) = true := by
  intro l
  induction l with
  | nil => intro b; rfl
  | cons a rest ih =>
    intro b
    cases ha : isLowerAlnum a with
    | true =>
      rw [collapseRuns_cons_alnum b a rest ha, cleanRun_cons_alnum b a _ ha]
      exact ih false
    | false =>
      cases b with
      | true =>
        rw [collapseRuns_cons_other_true a rest ha]
        exact ih true
      | false =>
        rw [collapseRuns_cons_other_false a rest ha,
          cleanRun_cons_other false '_' _ (by decide)]
        simpa using ih true

lemma cleanRun_of_true {l : List Char} (h : cleanRun true l = true) :
    cleanRun false l = true := by
  cases l with
  | nil => rfl
  | cons c rest =>
    cases hc : isLowerAlnum c with
    | true =>
      rw [cleanRun_cons_alnum true c rest hc] at h
      rw [cleanRun_cons_alnum false c rest hc]
      exact h
    | false =>
      rw [cleanRun_cons_other true c rest hc] at h
      simp at h

lemma cleanRun_head_alnum {c : Char} {t : List Char}
    (h : cleanRun true (c :: t) = true) : isLowerAlnum c = true := by
  cases hc : isLowerAlnum c with
  | true => rfl
  | false =>
    rw [cleanRun_cons_other true c t hc] at h
    simp at h

lemma ne_underscore_of_alnum {c : Char} (h : isLowerAlnum c = true) : ¬(c = '_') := by
  intro he
  subst he
  simp [isLowerAlnum] at h

lemma cleanRun_append_left :
    ∀ (l₁ l₂ : List Char) (b : Bool), cleanRun b (l₁ ++ l₂) = true →
      cleanRun b l₁ = true := by
  intro l₁
  induction l₁ with
  | nil => intro l₂ b _; rfl
  | cons c rest ih =>
    intro l₂ b h
    cases hc : isLowerAlnum c with
    | true =>
      rw [List.cons_append, cleanRun_cons_alnum b c _ hc] at h
      rw [cleanRun_cons_alnum b c rest hc]
      exact ih l₂ false h
    | false =>
      rw [List.cons_append, cleanRun_cons_other b c _ hc] at h
      rw [cleanRun_cons_other b c rest hc]
      simp only [Bool.and_eq_true] at h ⊢
      exact ⟨h.1, ih l₂ true h.2⟩

lemma collapseRuns_of_cleanRun :
    ∀ (l : List Char) (b : Bool), cleanRun b l = true → collapseRuns b l = l := by
  intro l
  induction l with
  | nil => intro b _; rfl
  | cons c rest ih =>
    intro b h
    cases hc : isLowerAlnum c with
    | true =>
      rw [cleanRun_cons_alnum b c rest hc] at h
      rw [collapseRuns_cons_alnum b c rest hc, ih false h]
    | false =>
      rw [cleanRun_cons_other b c rest hc] at h
      simp only [Bool.and_eq_true, decide_eq_true_eq, Bool.not_eq_true'] at h
      obtain ⟨⟨hcu, hb⟩, hrest⟩ := h
      subst hcu hb
      rw [collapseRuns_cons_other_false '_' rest hc, ih true hrest]

lemma dropWhile_head_false {α : Type} (p : α → Bool) :
    ∀ (l : List α) (c : α) (t : List α), l.dropWhile p = c :: t → p c = false := by
  intro l
  induction l with
  | nil => intro c t h; simp [List.dropWhile] at h
  | cons a l ih =>
    intro c t h
    cases ha : p a with
    | true =>
      simp only [List.dropWhile, ha] at h
      exact ih c t h
    | false =>
      simp only [List.dropWhile, ha, List.cons.injEq] at h
      exact h.1 ▸ ha

lemma dropWhile_cons_of_head_false {α : Type} (p : α → Bool) (c : α) (t : List α)
    (h : p c = false) : (c :: t).dropWhile p = c :: t := by
  simp only [List.dropWhile, h]

lemma dropWhile_eq_self_of_all {α : Type} (p : α → Bool) (l : List α)
    (h : ∀ c ∈ l, p c = false) : l.dropWhile p = l := by
  cases l with
  | nil => rfl
  | cons c t => exact dropWhile_cons_of_head_false p c t (h c (List.mem_cons_self c t))

lemma mem_of_mem_dropWhile {α : Type} (p : α → Bool) (l : List α) (c : α)
    (h : c ∈ l.dropWhile p) : c ∈ l := by
  have hs := List.takeWhile_append_dropWhile p l
  rw [← hs]
  exact List.mem_append_right _ h

lemma mem_of_mem_pyStripList (p : Char → Bool) (l : List Char) (c : Char)
    (h : c ∈ pyStripList p l) : c ∈ l := by
  unfold pyStripList at h
  rw [List.mem_reverse] at h
  have h1 := mem_of_mem_dropWhile p _ c h
  rw [List.mem_reverse] at h1
  exact mem_of_mem_dropWhile p _ c h1

lemma pyStripList_eq_self_of_all (p : Char → Bool) (l : List Char)
    (h : ∀ c ∈ l, p c = false) : pyStripList p l = l := by
  unfold pyStripList
  rw [dropWhile_eq_self_of_all p l h,
    dropWhile_eq_self_of_all p l.reverse (fun c hc => h c (List.mem_reverse.mp hc)),
    List.reverse_reverse]

lemma strip_recompose {α : Type} (p : α → Bool) (a : List α) :
    a = (a.reverse.dropWhile p).reverse ++ (a.reverse.takeWhile p).reverse := by
  calc a = a.reverse.reverse := (List.reverse_reverse a).symm
  _ = (a.reverse.takeWhile p ++ a.reverse.dropWhile p).reverse := by
      rw [List.takeWhile_append_dropWhile]
  _ = (a.reverse.dropWhile p).reverse ++ (a.reverse.takeWhile p).reverse :=
      List.reverse_append _ _

lemma pyStripList_idem (p : Char → Bool) (l : List Char) :
    pyStripList p (pyStripList p l) = pyStripList p l := by
  unfold pyStripList
  have hpre := strip_recompose p (l.dropWhile p)
  have hT : (((l.dropWhile p).reverse.dropWhile p).reverse).dropWhile p
      = ((l.dropWhile p).reverse.dropWhile p).reverse := by
    cases hBr : ((l.dropWhile p).reverse.dropWhile p).reverse with
    | nil => rfl
    | cons c t =>
      rw [hBr, List.cons_append] at hpre
      have hc : p c = false := dropWhile_head_false p l c _ hpre
      exact dropWhile_cons_of_head_false p c t hc
  rw [hT, List.reverse_reverse]
  cases hBc : (l.dropWhile p).reverse.dropWhile p with
  | nil => simp
  | cons c t =>
    have hc : p c = false := dropWhile_head_false p (l.dropWhile p).reverse c t hBc
    rw [dropWhile_cons_of_head_false p c t hc]

lemma cleanRun_dropWhile_underscore (l : List Char)
    (h : cleanRun false l = true) :
    cleanRun false (l.dropWhile (fun c => decide (c = '_'))) = true := by
  cases l with
  | nil => exact h
  | cons c rest =>
    by_cases hc : c = '_'
    · subst hc
      rw [List.dropWhile, show decide ('_' = '_') = true from rfl]
      have hrest : cleanRun true rest = true := by
        simpa [cleanRun, isLowerAlnum] using h
      have hdrop : rest.dropWhile (fun c => decide (c = '_')) = rest := by
        cases rest with
        | nil => rfl
        | cons d t =>
          have hd : isLowerAlnum d = true := cleanRun_head_alnum hrest
          exact dropWhile_cons_of_head_false _ d t
            (by simp [ne_underscore_of_alnum hd])
      rw [hdrop]
      exact cleanRun_of_true hrest
    · rw [dropWhile_cons_of_head_false _ c rest (by simp [hc])]
      exact h

lemma cleanRun_pyStripList (l : List Char) (h : cleanRun false l = true) :
    cleanRun false (pyStripList (fun c => decide (c = '_')) l) = true := by
  unfold pyStripList
  have h1 := cleanRun_dropWhile_underscore l h
  have hpre := strip_recompose (fun c => decide (c = '_'))
    (l.dropWhile (fun c => decide (c = '_')))
  exact cleanRun_append_left _ _ false (by rw [← hpre]; exact h1)

lemma pyIsSpace_eq_false_of_clean {c : Char}
    (h : isLowerAlnum c = true ∨ c = '_') : pyIsSpace c = false := by
  rcases h with h | h
  · simp only [isLowerAlnum, Bool.or_eq_true, Bool.and_eq_true,
      decide_eq_true_eq] at h
    simp only [pyIsSpace, Bool.or_eq_false_iff, decide_eq_false_iff_not]
    omega
  · subst h; rfl

lemma pyLowerChar_eq_self_of_clean {c : Char}
    (h : isLowerAlnum c = true ∨ c = '_') : pyLowerChar c = c := by
  rcases h with h | h
  · simp only [isLowerAlnum, Bool.or_eq_true, Bool.and_eq_true,
      decide_eq_true_eq] at h
    unfold pyLowerChar
    rw [if_neg]
    simp only [Bool.and_eq_true, decide_eq_true_eq, not_and]
    omega
  · subst h; rfl

lemma map_eq_self_of_all {α : Type} (f : α → α) :
    ∀ (l : List α), (∀ c ∈ l, f c = c) → l.map f = l := by
  intro l
  induction l with
  | nil => intro _; rfl
  | cons c t ih =>
    intro h
    rw [List.map_cons, h c (List.mem_cons_self c t),
      ih (fun d hd => h d (List.mem_cons_of_mem c hd))]

/-- Characters of a normalized header are lower-case alphanumerics or
underscores. -/
lemma mem_normalize_header (x : String) (c : Char)
    (h : c ∈ (normalize_header x).data) : isLowerAlnum c = true ∨ c = '_' := by
  unfold normalize_header at h
  exact mem_collapseRuns _ false c (mem_of_mem_pyStripList _ _ c h)

/-- C7: `normalize_header` lower-cases, collapses every run of
non-alphanumeric characters to one underscore and strips underscores at the
ends; it is idempotent for every string, and identifies differently
punctuated/cased spellings such as `"Lot No."` and `"lot__no"`. -/
theorem normalize_header_idempotent :
    (∀ x : String, normalize_header (normalize_header x) = normalize_header x)
    ∧ normalize_header "Lot No." = normalize_header "lot__no"
    ∧ normalize_header "Lot No." = "lot_no" := by
  refine ⟨?_, by decide, by decide⟩
  intro x
  have hclean : ∀ c ∈ (normalize_header x).data, isLowerAlnum c = true ∨ c = '_' :=
    fun c hc => mem_normalize_header x c hc
  show String.mk (pyStripList (fun c => c = '_')
      (collapseRuns false
        ((pyStripList pyIsSpace (normalize_header x).data).map pyLowerChar)))
    = normalize_header x
  rw [pyStripList_eq_self_of_all pyIsSpace _
      (fun c hc => pyIsSpace_eq_false_of_clean (hclean c hc))]
  rw [map_eq_self_of_all pyLowerChar _
      (fun c hc => pyLowerChar_eq_self_of_clean (hclean c hc))]
  have hX : cleanRun false (normalize_header x).data = true := by
    unfold normalize_header
    exact cleanRun_pyStripList _ (cleanRun_collapseRuns _ false)
  rw [collapseRuns_of_cleanRun _ false hX]
  have : pyStripList (fun c => decide (c = '_')) (normalize_header x).data
      = (normalize_header x).data := by
    conv_lhs => rw [show (normalize_header x).data
      = pyStripList (fun c => decide (c = '_'))
          (collapseRuns false ((pyStripList pyIsSpace x.data).map pyLowerChar)) from rfl]
    exact pyStripList_idem _ _
  rw [this]

/-- C6: `_to_date` on a string tries the four fixed patterns in source order —
ISO `YYYY-MM-DD`, then `MM/DD/YYYY`, then `MM/DD/YY`, then `DD-MM-YYYY` — and
returns the first successful parse, or `none` when no pattern matches; the
three spellings of 31 January 2024 agree and `"not-a-date"` is rejected. -/
theorem to_date_tries_formats_in_order :
    (∀ s : String,
      to_date (PyVal.str s) =
        (match fmtYmd (pyStrip s).data with
         | some d => some d
         | none =>
           match fmtMdY4 (pyStrip s).data with
           | some d => some d
           | none =>
             match fmtMdY2 (pyStrip s).data with
             | some d => some d
             | none =>
               match fmtDmY4 (pyStrip s).data with
               | some d => some d
               | none => none))
    ∧ to_date (PyVal.str "2024-01-31") = some ⟨2024, 1, 31⟩
    ∧ to_date (PyVal.str "01/31/2024") = some ⟨2024, 1, 31⟩
    ∧ to_date (PyVal.str "01/31/24") = some ⟨2024, 1, 31⟩
    ∧ to_date (PyVal.str "not-a-date") = none := by
  refine ⟨?_, by decide, by decide, by decide, by decide⟩
  intro s
  by_cases hs : s = ""
  · subst hs; decide
  · have hcond : ¬(PyVal.str s = PyVal.none ∨ PyVal.str s = PyVal.str "" ∨
        PyVal.str s = PyVal.bool false ∨ PyVal.str s = PyVal.int 0 ∨
        PyVal.str s = PyVal.float 0) := by
      simp [hs]
    simp only [to_date]
    rw [if_neg hcond]
    simp only [pyStr, strptimeFormats, tryFormatsFrom]

/-! ### The MTR table and `upsert_from_payload` -/

/-- One row of the `mtr_data` table (`MtrData`, models.py lines 55–103).
Char columns keep the raw payload value written into them; numeric columns
hold the `_to_float` coercion (`none` is SQL NULL / the ORM's `False`);
`uploaded_at` is a model timestamp (`none` only in hand-crafted table states,
since the upsert always writes it). -/
structure MtrRecord where
  id : Nat
  heat_number : String
  batch_number : String
  grade : PyVal
  manufacturer : PyVal
  certificate_number : PyVal
  certificate_date : Option PyDate
  c_element : Option ℚ
  mn_element : Option ℚ
  si_element : Option ℚ
  p_element : Option ℚ
  s_element : Option ℚ
  cu_element : Option ℚ
  ni_element : Option ℚ
  cr_element : Option ℚ
  mo_element : Option ℚ
  n_element : Option ℚ
  yield_strength : Option ℚ
  tensile_strength : Option ℚ
  elongation : Option ℚ
  reduction_area : Option ℚ
  hardness : Option ℚ
  impact_test_temp : Option ℚ
  impact_coupon_size : PyVal
  impact_specimen_1 : Option ℚ
  impact_specimen_2 : Option ℚ
  impact_specimen_3 : Option ℚ
  impact_average : Option ℚ
  country_of_melt : PyVal
  country_of_manufacture : PyVal
  source_file : PyVal
  uploaded_at : Option Nat
deriving DecidableEq, Repr

/-- The `mtr_data` table state: stored rows plus the sequence value for the
next fresh id. Newly created rows are prepended, so the list order is the
model's `id desc` search order. -/
structure MtrState where
  records : List MtrRecord
  nextId : Nat
deriving DecidableEq, Repr

/-- The empty MTR table. -/
def mtrEmpty : MtrState := { records := [], nextId := 1 }

/-- Errors surfaced by the embedded operations: `UserError`/`ValidationError`
with their message, or an uncaught `AttributeError` (calling `.strip()` on a
truthy non-string). -/
inductive PyErr where
  | userError (msg : String)
  | attributeError
deriving DecidableEq, Repr

/-- The `{"id": ..., "operation": ...}` dictionary returned by
`upsert_from_payload`. -/
structure UpsertResult where
  id : Nat
  operation : String
deriving DecidableEq, Repr

/-- `(payload.get(k) or "").strip()`: a falsy value becomes the empty string;
a truthy string is stripped; a truthy non-string raises `AttributeError`. -/
def keyString (v : PyVal) : Except PyErr String :=
  match pyOr v (PyVal.str "") with
  | .str s => .ok (pyStrip s)
  | _ => .error PyErr.attributeError

/-- Strict lexicographic comparison on `Nat × Nat` keys, used for the `ORDER
BY ... DESC` maxima below. -/
def lexGt (a b : Nat × Nat) : Bool :=
  b.1 < a.1 || (a.1 = b.1 && b.2 < a.2)

/-- One step of scanning for the key-maximal element. -/
def argmaxStep {α : Type} (key : α → Nat × Nat) (best : Option α) (r : α) : Option α :=
  match best with
  | none => some r
  | some c => if lexGt (key r) (key c) then some r else some c

/-- The element of `l` with the lexicographically greatest key (the row an
SQL `ORDER BY key DESC LIMIT 1` returns), or `none` on the empty list. -/
def argmaxLex {α : Type} (key : α → Nat × Nat) (l : List α) : Option α :=
  l.foldl (argmaxStep key) none

/-- `self.search([("heat_number", "=", heat), ("batch_number", "=", batch)],
limit=1)` under the model's default order `id desc`. -/
def mtr_search (s : MtrState) (heat batch : String) : Option MtrRecord :=
  argmaxLex (fun r => (r.id, 0))
    (s.records.filter (fun r => r.heat_number = heat && r.batch_number = batch))

/-- The `values` dictionary of `upsert_from_payload` (models.py lines
121–153), materialised as the record it creates/overwrites: trimmed keys,
raw Char payload values, coerced dates and floats (each chemical element
taking `payload.get(qualified) or payload.get(symbol)`), and `uploaded_at`
set to the current time. -/
def mtr_values (idv : Nat) (heat batch : String) (p : List (String × PyVal))
    (now : Nat) : MtrRecord :=
  { id := idv
    heat_number := heat
    batch_number := batch
    grade := pyGet p "grade"
    manufacturer := pyGet p "manufacturer"
    certificate_number := pyGet p "certificate_number"
    certificate_date := to_date (pyGet p "certificate_date")
    c_element := to_float (pyOr (pyGet p "c_element") (pyGet p "c"))
    mn_element := to_float (pyOr (pyGet p "mn_element") (pyGet p "mn"))
    si_element := to_float (pyOr (pyGet p "si_element") (pyGet p "si"))
    p_element := to_float (pyOr (pyGet p "p_element") (pyGet p "p"))
    s_element := to_float (pyOr (pyGet p "s_element") (pyGet p "s"))
    cu_element := to_float (pyOr (pyGet p "cu_element") (pyGet p "cu"))
    ni_element := to_float (pyOr (pyGet p "ni_element") (pyGet p "ni"))
    cr_element := to_float (pyOr (pyGet p "cr_element") (pyGet p "cr"))
    mo_element := to_float (pyOr (pyGet p "mo_element") (pyGet p "mo"))
    n_element := to_float (pyOr (pyGet p "n_element") (pyGet p "n"))
    yield_strength := to_float (pyGet p "yield_strength")
    tensile_strength := to_float (pyGet p "tensile_strength")
    elongation := to_float (pyGet p "elongation")
    reduction_area := to_float (pyGet p "reduction_area")
    hardness := to_float (pyGet p "hardness")
    impact_test_temp := to_float (pyGet p "impact_test_temp")
    impact_coupon_size := pyGet p "impact_coupon_size"
    impact_specimen_1 := to_float (pyGet p "impact_specimen_1")
    impact_specimen_2 := to_float (pyGet p "impact_specimen_2")
    impact_specimen_3 := to_float (pyGet p "impact_specimen_3")
    impact_average := to_float (pyGet p "impact_average")
    country_of_melt := pyGet p "country_of_melt"
    country_of_manufacture := pyGet p "country_of_manufacture"
    source_file := pyGet p "source_file"
    uploaded_at := some now }

/-- Embedding of `MtrData.upsert_from_payload` (models.py lines 111–163).
Returns the table state after the call together with the result or error;
an error leaves the state component equal to the input state, mirroring that
the exception fires before any write. -/
def upsert_from_payload (s : MtrState) (now : Nat) (payload : PyObj) :
    MtrState × Except PyErr UpsertResult :=
  match payload with
  | .val _ => (s, .error (.userError "Payload must be a dictionary."))
  | .dict p =>
    match keyString (pyGet p "heat_number") with
    | .error e => (s, .error e)
    | .ok heat =>
      match keyString (pyGet p "batch_number") with
      | .error e => (s, .error e)
      | .ok batch =>
        if heat = "" || batch = "" then
          (s, .error (.userError "heat_number and batch_number are required."))
        else
          match mtr_search s heat batch with
          | some existing =>
            ({ s with records := s.records.map (fun r =>
                 if r.id = existing.id then mtr_values existing.id heat batch p now
                 else r) },
             .ok { id := existing.id, operation := "updated" })
          | none =>
            ({ records := mtr_values s.nextId heat batch p now :: s.records,
               nextId := s.nextId + 1 },
             .ok { id := s.nextId, operation := "created" })

/-- State reached by one upsert call, ignoring the result (an error call
leaves the table as it was). -/
def apply_upsert (s : MtrState) (op : PyObj × Nat) : MtrState :=
  (upsert_from_payload s op.2 op.1).1

/-- State after a sequence of upsert calls starting from the empty table. -/
def run_upserts (ops : List (PyObj × Nat)) : MtrState :=
  ops.foldl apply_upsert mtrEmpty

/-- Entries of a minimal payload carrying just the two key fields. -/
def keyEntries (heat batch : String) : List (String × PyVal) :=
  [("heat_number", PyVal.str heat), ("batch_number", PyVal.str batch)]

/-- A minimal valid payload carrying just the two key fields. -/
def keyPayload (heat batch : String) : PyObj :=
  PyObj.dict (keyEntries heat batch)

/-! ### Properties of the lexicographic maximum -/

lemma lexGt_iff (a b : Nat × Nat) :
    lexGt a b = true ↔ (b.1 < a.1 ∨ (a.1 = b.1 ∧ b.2 < a.2)) := by
  simp [lexGt, Bool.or_eq_true, Bool.and_eq_true, decide_eq_true_eq]

lemma lexGt_irrefl (a : Nat × Nat) : lexGt a a = false := by
  simp only [Bool.eq_false_iff, Ne, lexGt_iff]
  omega

lemma lexGt_trans {a b c : Nat × Nat} (h1 : lexGt a b = true)
    (h2 : lexGt b c = true) : lexGt a c = true := by
  rw [lexGt_iff] at h1 h2 ⊢
  omega

lemma lexGt_false_trans {a b c : Nat × Nat} (h1 : lexGt a b = false)
    (h2 : lexGt b c = false) : lexGt a c = false := by
  simp only [Bool.eq_false_iff, Ne, lexGt_iff] at h1 h2 ⊢
  omega

lemma lexGt_total {a b : Nat × Nat} (hne : a ≠ b)
    (h : lexGt a b = false) : lexGt b a = true := by
  simp only [Bool.eq_false_iff, Ne, lexGt_iff] at h
  rw [lexGt_iff]
  have hc : a.1 ≠ b.1 ∨ a.2 ≠ b.2 := by
    by_contra hcc
    push_neg at hcc
    exact hne (Prod.ext hcc.1 hcc.2)
  omega

lemma argmax_foldl_spec {α : Type} (key : α → Nat × Nat) :
    ∀ (l : List α) (a : α), ∃ m, l.foldl (argmaxStep key) (some a) = some m ∧
      (m = a ∨ m ∈ l) ∧ lexGt (key a) (key m) = false ∧
      ∀ x ∈ l, lexGt (key x) (key m) = false := by
  intro l
  induction l with
  | nil =>
    intro a
    exact ⟨a, rfl, Or.inl rfl, lexGt_irrefl _,
      fun x hx => absurd hx (List.not_mem_nil x)⟩
  | cons c l ih =>
    intro a
    rw [List.foldl_cons]
    cases hgt : lexGt (key c) (key a) with
    | true =>
      have hstep : argmaxStep key (some a) c = some c := by
        simp [argmaxStep, hgt]
      rw [hstep]
      obtain ⟨m, hm, hmem, hma, hall⟩ := ih c
      refine ⟨m, hm, ?_, ?_, ?_⟩
      · rcases hmem with h | h
        · exact Or.inr (h ▸ List.mem_cons_self c l)
        · exact Or.inr (List.mem_cons_of_mem c h)
      · cases hq : lexGt (key a) (key m) with
        | true =>
          exact absurd (lexGt_trans hgt hq) (by rw [hma]; exact Bool.false_ne_true)
        | false => rfl
      · intro x hx
        rcases List.mem_cons.mp hx with h | h
        · exact h ▸ hma
        · exact hall x h
    | false =>
      have hstep : argmaxStep key (some a) c = some a := by
        simp [argmaxStep, hgt]
      rw [hstep]
      obtain ⟨m, hm, hmem, hma, hall⟩ := ih a
      refine ⟨m, hm, ?_, hma, ?_⟩
      · rcases hmem with h | h
        · exact Or.inl h
        · exact Or.inr (List.mem_cons_of_mem c h)
      · intro x hx
        rcases List.mem_cons.mp hx with h | h
        · exact h ▸ lexGt_false_trans hgt hma
        · exact hall x h

lemma argmaxLex_eq_none {α : Type} (key : α → Nat × Nat) (l : List α) :
    argmaxLex key l = none ↔ l = [] := by
  constructor
  · intro h
    cases l with
    | nil => rfl
    | cons c t =>
      obtain ⟨m, hm, -, -, -⟩ := argmax_foldl_spec key t c
      rw [argmaxLex, List.foldl_cons] at h
      have hstep : argmaxStep key none c = some c := rfl
      rw [hstep, hm] at h
      cases h
  · intro h
    subst h
    rfl

lemma argmaxLex_spec {α : Type} (key : α → Nat × Nat) (l : List α) (m : α)
    (h : argmaxLex key l = some m) :
    m ∈ l ∧ ∀ x ∈ l, lexGt (key x) (key m) = false := by
  cases l with
  | nil => cases h
  | cons c t =>
    rw [argmaxLex, List.foldl_cons] at h
    have hstep : argmaxStep key none c = some c := rfl
    rw [hstep] at h
    obtain ⟨m2, hm2, hmem, hma, hall⟩ := argmax_foldl_spec key t c
    rw [hm2] at h
    cases h
    constructor
    · rcases hmem with h | h
      · exact h ▸ List.mem_cons_self c t
      · exact List.mem_cons_of_mem c h
    · intro x hx
      rcases List.mem_cons.mp hx with h | h
      · exact h ▸ hma
      · exact hall x h

lemma mtr_search_none_iff (s : MtrState) (heat batch : String) :
    mtr_search s heat batch = none ↔
      ∀ r ∈ s.records, ¬(r.heat_number = heat ∧ r.batch_number = batch) := by
  unfold mtr_search
  rw [argmaxLex_eq_none, List.filter_eq_nil_iff]
  constructor
  · intro h r hr hc
    exact h r hr (by simp [hc.1, hc.2])
  · intro h r hr hc
    simp only [Bool.and_eq_true, decide_eq_true_eq] at hc
    exact h r hr ⟨hc.1, hc.2⟩

lemma mtr_search_some (s : MtrState) (heat batch : String) (ex : MtrRecord)
    (h : mtr_search s heat batch = some ex) :
    ex ∈ s.records ∧ ex.heat_number = heat ∧ ex.batch_number = batch := by
  obtain ⟨hmem, -⟩ := argmaxLex_spec _ _ _ h
  rw [List.mem_filter] at hmem
  have hc := hmem.2
  simp only [Bool.and_eq_true, decide_eq_true_eq] at hc
  exact ⟨hmem.1, hc.1, hc.2⟩

lemma pyStrip_empty : pyStrip "" = "" := rfl

lemma ne_empty_of_pyStrip {s : String} (h : pyStrip s ≠ "") : s ≠ "" := by
  intro he
  exact h (he ▸ pyStrip_empty)

/-- `keyString` on a non-empty-trimming string value returns the trimmed
string. -/
lemma keyString_str {s : String} (h : s ≠ "") :
    keyString (PyVal.str s) = .ok (pyStrip s) := by
  unfold keyString pyOr
  rw [if_pos]
  simp [pyTruthy, h]

/-- Payload entries `{"heat_number": h, "batch_number": b, "grade": g}`. -/
def gradeEntries (h b g : String) : List (String × PyVal) :=
  [("heat_number", PyVal.str h), ("batch_number", PyVal.str b),
   ("grade", PyVal.str g)]

/-- The corresponding payload object. -/
def gradePayload (h b g : String) : PyObj :=
  PyObj.dict (gradeEntries h b g)

lemma gradeEntries_get_heat (h b g : String) :
    pyGet (gradeEntries h b g) "heat_number" = PyVal.str h := rfl

lemma gradeEntries_get_batch (h b g : String) :
    pyGet (gradeEntries h b g) "batch_number" = PyVal.str b := rfl

lemma gradeEntries_get_grade (h b g : String) :
    pyGet (gradeEntries h b g) "grade" = PyVal.str g := rfl

/-- Shared case analysis of a validity-passing upsert call: the update branch
rewrites the found record in place from the new payload, the create branch
prepends a fresh record. -/
lemma upsert_valid_cases (s : MtrState) (now : Nat) (p : List (String × PyVal))
    (heat batch : String)
    (hkh : keyString (pyGet p "heat_number") = .ok heat)
    (hkb : keyString (pyGet p "batch_number") = .ok batch)
    (hne1 : heat ≠ "") (hne2 : batch ≠ "") :
    (∀ ex, mtr_search s heat batch = some ex →
      upsert_from_payload s now (.dict p) =
        ({ s with records := s.records.map (fun r =>
             if r.id = ex.id then mtr_values ex.id heat batch p now else r) },
         .ok { id := ex.id, operation := "updated" })) ∧
    (mtr_search s heat batch = none →
      upsert_from_payload s now (.dict p) =
        ({ records := mtr_values s.nextId heat batch p now :: s.records,
           nextId := s.nextId + 1 },
         .ok { id := s.nextId, operation := "created" })) := by
  constructor
  · intro ex hex
    simp only [upsert_from_payload, hkh, hkb, hex]
    rw [if_neg]
    simp [hne1, hne2]
  · intro hnone
    simp only [upsert_from_payload, hkh, hkb, hnone]
    rw [if_neg]
    simp [hne1, hne2]

/-- C2: the upsert looks the pair (heat, batch) up; on a hit it overwrites the
found record with the full value set built from the new payload alone (so no
old field survives) and reports `"updated"`; on a miss it inserts a fresh
record and reports `"created"`. Two same-key upserts with grades `g₁` then
`g₂` leave exactly one record, carrying `g₂` and the second call's timestamp,
with operations `"created"` then `"updated"`. -/
theorem upsert_full_replace :
    (∀ (s : MtrState) (now : Nat) (p : List (String × PyVal)) (heat batch : String),
      keyString (pyGet p "heat_number") = .ok heat →
      keyString (pyGet p "batch_number") = .ok batch →
      heat ≠ "" → batch ≠ "" →
      (∀ ex, mtr_search s heat batch = some ex →
        upsert_from_payload s now (.dict p) =
          ({ s with records := s.records.map (fun r =>
               if r.id = ex.id then mtr_values ex.id heat batch p now else r) },
           .ok { id := ex.id, operation := "updated" })) ∧
      (mtr_search s heat batch = none →
        upsert_from_payload s now (.dict p) =
          ({ records := mtr_values s.nextId heat batch p now :: s.records,
             nextId := s.nextId + 1 },
           .ok { id := s.nextId, operation := "created" })))
    ∧ (∀ (h b g₁ g₂ : String) (t₁ t₂ : Nat),
        pyStrip h ≠ "" → pyStrip b ≠ "" →
        (upsert_from_payload mtrEmpty t₁ (gradePayload h b g₁)).2 =
          .ok { id := 1, operation := "created" } ∧
        (upsert_from_payload
            (upsert_from_payload mtrEmpty t₁ (gradePayload h b g₁)).1 t₂
            (gradePayload h b g₂)).2 =
          .ok { id := 1, operation := "updated" } ∧
        (upsert_from_payload
            (upsert_from_payload mtrEmpty t₁ (gradePayload h b g₁)).1 t₂
            (gradePayload h b g₂)).1.records =
          [mtr_values 1 (pyStrip h) (pyStrip b) (gradeEntries h b g₂) t₂] ∧
        (mtr_values 1 (pyStrip h) (pyStrip b) (gradeEntries h b g₂) t₂).grade =
          PyVal.str g₂ ∧
        (mtr_values 1 (pyStrip h) (pyStrip b) (gradeEntries h b g₂) t₂).uploaded_at =
          some t₂) := by
  have hgen := upsert_valid_cases
  refine ⟨fun s now p heat batch h1 h2 h3 h4 =>
    upsert_valid_cases s now p heat batch h1 h2 h3 h4, ?_⟩
  intro h b g₁ g₂ t₁ t₂ hH hB
  have hh := ne_empty_of_pyStrip hH
  have hb := ne_empty_of_pyStrip hB
  have hs1 : upsert_from_payload mtrEmpty t₁ (gradePayload h b g₁) =
      ({ records := [mtr_values 1 (pyStrip h) (pyStrip b) (gradeEntries h b g₁) t₁],
         nextId := 2 },
       .ok { id := 1, operation := "created" }) := by
    have := (hgen mtrEmpty t₁ (gradeEntries h b g₁) (pyStrip h) (pyStrip b)
      (by rw [gradeEntries_get_heat, keyString_str hh])
      (by rw [gradeEntries_get_batch, keyString_str hb]) hH hB).2 rfl
    simpa [gradePayload, mtrEmpty] using this
  have hsearch : mtr_search
      ({ records := [mtr_values 1 (pyStrip h) (pyStrip b) (gradeEntries h b g₁) t₁],
         nextId := 2 } : MtrState) (pyStrip h) (pyStrip b) =
      some (mtr_values 1 (pyStrip h) (pyStrip b) (gradeEntries h b g₁) t₁) := by
    unfold mtr_search
    rw [show List.filter
        (fun r => r.heat_number = pyStrip h && r.batch_number = pyStrip b)
        [mtr_values 1 (pyStrip h) (pyStrip b) (gradeEntries h b g₁) t₁]
      = [mtr_values 1 (pyStrip h) (pyStrip b) (gradeEntries h b g₁) t₁] from by
      simp [mtr_values]]
    rfl
  have hs2 : upsert_from_payload
      ({ records := [mtr_values 1 (pyStrip h) (pyStrip b) (gradeEntries h b g₁) t₁],
         nextId := 2 } : MtrState) t₂ (gradePayload h b g₂) =
      ({ records := [mtr_values 1 (pyStrip h) (pyStrip b) (gradeEntries h b g₂) t₂],
         nextId := 2 },
       .ok { id := 1, operation := "updated" }) := by
    have := (hgen _ t₂ (gradeEntries h b g₂) (pyStrip h) (pyStrip b)
      (by rw [gradeEntries_get_heat, keyString_str hh])
      (by rw [gradeEntries_get_batch, keyString_str hb]) hH hB).1 _ hsearch
    rw [gradePayload, this]
    simp [mtr_values]
  rw [hs1]
  refine ⟨rfl, ?_, ?_, gradeEntries_get_grade h b g₂, rfl⟩
  · rw [show (({ records := [mtr_values 1 (pyStrip h) (pyStrip b)
        (gradeEntries h b g₁) t₁], nextId := 2 } : MtrState),
      (.ok { id := 1, operation := "created" } :
        Except PyErr UpsertResult)).1
      = ({ records := [mtr_values 1 (pyStrip h) (pyStrip b)
            (gradeEntries h b g₁) t₁], nextId := 2 } : MtrState) from rfl, hs2]
  · rw [show (({ records := [mtr_values 1 (pyStrip h) (pyStrip b)
        (gradeEntries h b g₁) t₁], nextId := 2 } : MtrState),
      (.ok { id := 1, operation := "created" } :
        Except PyErr UpsertResult)).1
      = ({ records := [mtr_values 1 (pyStrip h) (pyStrip b)
            (gradeEntries h b g₁) t₁], nextId := 2 } : MtrState) from rfl, hs2]

/-- Witness for C2: concrete two-upsert run with key `("H1", "B1")` (the
first spelling carries surrounding whitespace) and grades `"A36"`, `"A572"`. -/
theorem upsert_full_replace_witness :
    (upsert_from_payload mtrEmpty 5 (gradePayload " H1 " "B1" "A36")).2 =
      .ok { id := 1, operation := "created" } ∧
    (upsert_from_payload
        (upsert_from_payload mtrEmpty 5 (gradePayload " H1 " "B1" "A36")).1 6
        (gradePayload " H1 " "B1" "A572")).2 =
      .ok { id := 1, operation := "updated" } ∧
    (mtr_values 1 (pyStrip " H1 ") (pyStrip "B1")
      (gradeEntries " H1 " "B1" "A572") 6).grade = PyVal.str "A572" := by
  have hw := upsert_full_replace.2 " H1 " "B1" "A36" "A572" 5 6
    (by decide) (by decide)
  exact ⟨hw.1, hw.2.1, hw.2.2.2.1⟩

lemma keyEntries_get_heat (h b : String) :
    pyGet (keyEntries h b) "heat_number" = PyVal.str h := rfl

lemma keyEntries_get_batch (h b : String) :
    pyGet (keyEntries h b) "batch_number" = PyVal.str b := rfl

/-- C10: the upsert stores the trimmed key strings — the created/updated
record carries `heat_number`/`batch_number` stripped of surrounding
whitespace — and the lookup uses the trimmed values, so two upserts whose raw
keys differ only in surrounding whitespace address the same stored record. -/
theorem upsert_trims_keys :
    (∀ (s : MtrState) (now : Nat) (p : List (String × PyVal)) (h b : String),
      pyGet p "heat_number" = PyVal.str h →
      pyGet p "batch_number" = PyVal.str b →
      pyStrip h ≠ "" → pyStrip b ≠ "" →
      ∃ s2 res, upsert_from_payload s now (.dict p) = (s2, .ok res) ∧
        ∃ r ∈ s2.records, r.id = res.id ∧
          r.heat_number = pyStrip h ∧ r.batch_number = pyStrip b)
    ∧ (∀ (h b h2 b2 : String) (t₁ t₂ : Nat),
        pyStrip h2 = pyStrip h → pyStrip b2 = pyStrip b →
        pyStrip h ≠ "" → pyStrip b ≠ "" →
        (upsert_from_payload
            (upsert_from_payload mtrEmpty t₁ (keyPayload h b)).1 t₂
            (keyPayload h2 b2)).2 = .ok { id := 1, operation := "updated" } ∧
        (upsert_from_payload
            (upsert_from_payload mtrEmpty t₁ (keyPayload h b)).1 t₂
            (keyPayload h2 b2)).1.records =
          [mtr_values 1 (pyStrip h) (pyStrip b) (keyEntries h2 b2) t₂]) := by
  constructor
  · intro s now p h b hph hpb hH hB
    have hkh : keyString (pyGet p "heat_number") = .ok (pyStrip h) := by
      rw [hph, keyString_str (ne_empty_of_pyStrip hH)]
    have hkb : keyString (pyGet p "batch_number") = .ok (pyStrip b) := by
      rw [hpb, keyString_str (ne_empty_of_pyStrip hB)]
    have hc := upsert_valid_cases s now p (pyStrip h) (pyStrip b) hkh hkb hH hB
    cases hex : mtr_search s (pyStrip h) (pyStrip b) with
    | some ex =>
      refine ⟨_, _, hc.1 ex hex, mtr_values ex.id (pyStrip h) (pyStrip b) p now,
        ?_, rfl, rfl, rfl⟩
      have hmem := (mtr_search_some s _ _ ex hex).1
      have := List.mem_map_of_mem (fun r =>
        if r.id = ex.id then mtr_values ex.id (pyStrip h) (pyStrip b) p now else r) hmem
      simpa using this
    | none =>
      exact ⟨_, _, hc.2 hex, mtr_values s.nextId (pyStrip h) (pyStrip b) p now,
        List.mem_cons_self _ _, rfl, rfl, rfl⟩
  · intro h b h2 b2 t₁ t₂ hhe hbe hH hB
    have hh := ne_empty_of_pyStrip hH
    have hb := ne_empty_of_pyStrip hB
    have hh2 : h2 ≠ "" := ne_empty_of_pyStrip (hhe ▸ hH)
    have hb2 : b2 ≠ "" := ne_empty_of_pyStrip (hbe ▸ hB)
    have hs1 : upsert_from_payload mtrEmpty t₁ (keyPayload h b) =
        ({ records := [mtr_values 1 (pyStrip h) (pyStrip b) (keyEntries h b) t₁],
           nextId := 2 },
         .ok { id := 1, operation := "created" }) := by
      have := (upsert_valid_cases mtrEmpty t₁ (keyEntries h b) (pyStrip h) (pyStrip b)
        (by rw [keyEntries_get_heat, keyString_str hh])
        (by rw [keyEntries_get_batch, keyString_str hb]) hH hB).2 rfl
      simpa [keyPayload, mtrEmpty] using this
    have hsearch : mtr_search
        ({ records := [mtr_values 1 (pyStrip h) (pyStrip b) (keyEntries h b) t₁],
           nextId := 2 } : MtrState) (pyStrip h2) (pyStrip b2) =
        some (mtr_values 1 (pyStrip h) (pyStrip b) (keyEntries h b) t₁) := by
      unfold mtr_search
      rw [show List.filter
          (fun r => r.heat_number = pyStrip h2 && r.batch_number = pyStrip b2)
          [mtr_values 1 (pyStrip h) (pyStrip b) (keyEntries h b) t₁]
        = [mtr_values 1 (pyStrip h) (pyStrip b) (keyEntries h b) t₁] from by
        simp [mtr_values, hhe, hbe]]
      rfl
    have hs2 : upsert_from_payload
        ({ records := [mtr_values 1 (pyStrip h) (pyStrip b) (keyEntries h b) t₁],
           nextId := 2 } : MtrState) t₂ (keyPayload h2 b2) =
        ({ records := [mtr_values 1 (pyStrip h2) (pyStrip b2) (keyEntries h2 b2) t₂],
           nextId := 2 },
         .ok { id := 1, operation := "updated" }) := by
      have := (upsert_valid_cases _ t₂ (keyEntries h2 b2) (pyStrip h2) (pyStrip b2)
        (by rw [keyEntries_get_heat, keyString_str hh2])
        (by rw [keyEntries_get_batch, keyString_str hb2])
        (hhe ▸ hH) (hbe ▸ hB)).1 _ hsearch
      rw [keyPayload, this]
      simp [mtr_values]
    rw [hs1]
    rw [show (({ records := [mtr_values 1 (pyStrip h) (pyStrip b)
          (keyEntries h b) t₁], nextId := 2 } : MtrState),
        (.ok { id := 1, operation := "created" } :
          Except PyErr UpsertResult)).1
        = ({ records := [mtr_values 1 (pyStrip h) (pyStrip b)
              (keyEntries h b) t₁], nextId := 2 } : MtrState) from rfl, hs2]
    exact ⟨rfl, by rw [hhe, hbe]⟩

/-- Witness for C10: `" H1 "` and `"H1"` (and `" B1 "`, `"B1"`) address the
same stored record; the second call updates record 1. -/
theorem upsert_trims_keys_witness :
    (upsert_from_payload
        (upsert_from_payload mtrEmpty 3 (keyPayload " H1 " " B1 ")).1 4
        (keyPayload "H1" "B1")).2 = .ok { id := 1, operation := "updated" } := by
  exact (upsert_trims_keys.2 " H1 " " B1 " "H1" "B1" 3 4
    (by decide) (by decide) (by decide) (by decide)).1

/-- The element value the upsert actually stores for an alias pair: the
qualified name wins when its value is truthy (so the number `0`, `False`,
`None` and `""` all fall through to the short symbol), else the short
symbol's value is coerced. -/
def elemAlias (p : List (String × PyVal)) (qual sym : String) : Option ℚ :=
  if pyTruthy (pyGet p qual) then to_float (pyGet p qual)
  else to_float (pyGet p sym)

lemma elemAlias_eq (p : List (String × PyVal)) (qual sym : String) :
    to_float (pyOr (pyGet p qual) (pyGet p sym)) = elemAlias p qual sym := by
  cases hc : pyTruthy (pyGet p qual) <;> simp [elemAlias, pyOr, hc]

/-- Payload refuting C9 as stated: the qualified name carries the (non-empty)
number `0`, the short symbol carries `5`. -/
def c9Entries : List (String × PyVal) :=
  [("heat_number", PyVal.str "H1"), ("batch_number", PyVal.str "B1"),
   ("c_element", PyVal.int 0), ("c", PyVal.float 5)]

/-- Counterexample to C9 as stated: with `c_element = 0` (present and
non-empty, coercing to `some 0`) and `c = 5`, the stored record's
`c_element` is `5`, not `0` — Python's `or` discards the falsy `0`. -/
theorem element_alias_counterexample :
    ((upsert_from_payload mtrEmpty 7 (PyObj.dict c9Entries)).1.records.map
      (fun r => r.c_element)) = [some (5 : ℚ)] ∧
    pyGet c9Entries "c_element" = PyVal.int 0 ∧
    to_float (PyVal.int 0) = some 0 ∧
    some (5 : ℚ) ≠ some (0 : ℚ) := by
  refine ⟨by decide, by decide, by decide, by decide⟩

/-- C9 (amended): each chemical element is accepted under its qualified field
name or its short symbol; when both are present the first TRUTHY value wins —
a qualified value of `0` (or `""`, `None`, `False`) falls through to the
short symbol — and the stored value is the float coercion of the winner. -/
theorem upsert_element_alias_truthy :
    ∀ (s : MtrState) (now : Nat) (p : List (String × PyVal)) (heat batch : String),
      keyString (pyGet p "heat_number") = .ok heat →
      keyString (pyGet p "batch_number") = .ok batch →
      heat ≠ "" → batch ≠ "" →
      ∃ s2 res, upsert_from_payload s now (.dict p) = (s2, .ok res) ∧
        ∃ r ∈ s2.records, r.id = res.id ∧
          r.c_element = elemAlias p "c_element" "c" ∧
          r.mn_element = elemAlias p "mn_element" "mn" ∧
          r.si_element = elemAlias p "si_element" "si" ∧
          r.p_element = elemAlias p "p_element" "p" ∧
          r.s_element = elemAlias p "s_element" "s" ∧
          r.cu_element = elemAlias p "cu_element" "cu" ∧
          r.ni_element = elemAlias p "ni_element" "ni" ∧
          r.cr_element = elemAlias p "cr_element" "cr" ∧
          r.mo_element = elemAlias p "mo_element" "mo" ∧
          r.n_element = elemAlias p "n_element" "n" := by
  intro s now p heat batch hkh hkb hne1 hne2
  have hc := upsert_valid_cases s now p heat batch hkh hkb hne1 hne2
  cases hex : mtr_search s heat batch with
  | some ex =>
    refine ⟨_, _, hc.1 ex hex, mtr_values ex.id heat batch p now, ?_, rfl,
      elemAlias_eq p "c_element" "c", elemAlias_eq p "mn_element" "mn",
      elemAlias_eq p "si_element" "si", elemAlias_eq p "p_element" "p",
      elemAlias_eq p "s_element" "s", elemAlias_eq p "cu_element" "cu",
      elemAlias_eq p "ni_element" "ni", elemAlias_eq p "cr_element" "cr",
      elemAlias_eq p "mo_element" "mo", elemAlias_eq p "n_element" "n"⟩
    have hmem := (mtr_search_some s _ _ ex hex).1
    have := List.mem_map_of_mem (fun r =>
      if r.id = ex.id then mtr_values ex.id heat batch p now else r) hmem
    simpa using this
  | none =>
    exact ⟨_, _, hc.2 hex, mtr_values s.nextId heat batch p now,
      List.mem_cons_self _ _, rfl,
      elemAlias_eq p "c_element" "c", elemAlias_eq p "mn_element" "mn",
      elemAlias_eq p "si_element" "si", elemAlias_eq p "p_element" "p",
      elemAlias_eq p "s_element" "s", elemAlias_eq p "cu_element" "cu",
      elemAlias_eq p "ni_element" "ni", elemAlias_eq p "cr_element" "cr",
      elemAlias_eq p "mo_element" "mo", elemAlias_eq p "n_element" "n"⟩

/-- Payload for the C9 witness: only the short symbol `c` is given. -/
def c9WitnessEntries : List (String × PyVal) :=
  [("heat_number", PyVal.str "H1"), ("batch_number", PyVal.str "B1"),
   ("c", PyVal.float 3)]

/-- Witness for the amended C9 at a concrete payload. -/
theorem upsert_element_alias_truthy_witness :
    ∃ s2 res, upsert_from_payload mtrEmpty 9 (.dict c9WitnessEntries) = (s2, .ok res) ∧
      ∃ r ∈ s2.records, r.id = res.id ∧
        r.c_element = elemAlias c9WitnessEntries "c_element" "c" := by
  obtain ⟨s2, res, h1, r, h2, h3, h4, -⟩ :=
    upsert_element_alias_truthy mtrEmpty 9 c9WitnessEntries "H1" "B1"
      rfl rfl (by decide) (by decide)
  exact ⟨s2, res, h1, r, h2, h3, h4⟩

/-! ### Key uniqueness under upsert sequences -/

/-- The (heat, batch) key of a stored record. -/
def mtrKey (r : MtrRecord) : String × String := (r.heat_number, r.batch_number)

/-- The table invariant the upsert maintains: ids are below the fresh-id
counter and pairwise distinct, and keys are pairwise distinct. -/
def MtrInv (s : MtrState) : Prop :=
  (∀ r ∈ s.records, r.id < s.nextId) ∧
  s.records.Pairwise (fun a b => a.id ≠ b.id ∧ mtrKey a ≠ mtrKey b)

lemma mtrInv_empty : MtrInv mtrEmpty :=
  ⟨fun r hr => absurd hr (List.not_mem_nil r), List.Pairwise.nil⟩

lemma mtrInv_step (s : MtrState) (now : Nat) (payload : PyObj) (hs : MtrInv s) :
    MtrInv (upsert_from_payload s now payload).1 := by
  cases payload with
  | val v => exact hs
  | dict p =>
    unfold upsert_from_payload
    cases hkh : keyString (pyGet p "heat_number") with
    | error e => simpa only [hkh] using hs
    | ok heat =>
      cases hkb : keyString (pyGet p "batch_number") with
      | error e => simpa only [hkh, hkb] using hs
      | ok batch =>
        simp only [hkh, hkb]
        split
        · exact hs
        · cases hex : mtr_search s heat batch with
          | some ex =>
            simp only [hex]
            obtain ⟨hexmem, hexh, hexb⟩ := mtr_search_some s heat batch ex hex
            have hsymm : Symmetric (fun a b : MtrRecord =>
                a.id ≠ b.id ∧ mtrKey a ≠ mtrKey b) :=
              fun a b hab => ⟨Ne.symm hab.1, Ne.symm hab.2⟩
            have huniq : ∀ r ∈ s.records, r.id = ex.id → r = ex := by
              intro r hr hid
              by_contra hne
              exact absurd hid (hs.2.forall hsymm hr hexmem hne).1
            have hpres : ∀ r ∈ s.records,
                ((if r.id = ex.id then mtr_values ex.id heat batch p now else r).id
                    = r.id) ∧
                (mtrKey (if r.id = ex.id then mtr_values ex.id heat batch p now
                    else r) = mtrKey r) := by
              intro r hr
              by_cases hid : r.id = ex.id
              · have hre := huniq r hr hid
                subst hre
                rw [if_pos rfl]
                exact ⟨hid.symm ▸ rfl, by
                  unfold mtrKey
                  rw [show (mtr_values r.id heat batch p now).heat_number = heat
                      from rfl,
                    show (mtr_values r.id heat batch p now).batch_number = batch
                      from rfl, hexh, hexb]⟩
              · rw [if_neg hid]
                exact ⟨rfl, rfl⟩
            constructor
            · intro r hr
              obtain ⟨r0, hr0, hr0e⟩ := List.mem_map.mp hr
              have := (hpres r0 hr0).1
              rw [hr0e] at this
              rw [this]
              exact hs.1 r0 hr0
            · rw [List.pairwise_map]
              refine List.Pairwise.imp_of_mem ?_ hs.2
              intro a b ha hb hab
              exact ⟨((hpres a ha).1).symm ▸ ((hpres b hb).1).symm ▸ hab.1,
                ((hpres a ha).2).symm ▸ ((hpres b hb).2).symm ▸ hab.2⟩
          | none =>
            simp only [hex]
            have hnomatch := (mtr_search_none_iff s heat batch).mp hex
            constructor
            · intro r hr
              rcases List.mem_cons.mp hr with h | h
              · rw [h]
                exact Nat.lt_succ_self s.nextId
              · exact Nat.lt_succ_of_lt (hs.1 r h)
            · rw [List.pairwise_cons]
              refine ⟨?_, hs.2⟩
              intro b hb
              refine ⟨?_, ?_⟩
              · have := hs.1 b hb
                rw [show (mtr_values s.nextId heat batch p now).id = s.nextId
                  from rfl]
                omega
              · intro hkeq
                apply hnomatch b hb
                unfold mtrKey at hkeq
                rw [show (mtr_values s.nextId heat batch p now).heat_number = heat
                    from rfl,
                  show (mtr_values s.nextId heat batch p now).batch_number = batch
                    from rfl] at hkeq
                have h1 := congrArg Prod.fst hkeq
                have h2 := congrArg Prod.snd hkeq
                exact ⟨h1.symm, h2.symm⟩

lemma run_upserts_inv_aux :
    ∀ (ops : List (PyObj × Nat)) (s : MtrState), MtrInv s →
      MtrInv (ops.foldl apply_upsert s) := by
  intro ops
  induction ops with
  | nil => intro s hs; exact hs
  | cons op rest ih =>
    intro s hs
    rw [List.foldl_cons]
    exact ih _ (mtrInv_step s op.2 op.1 hs)

lemma run_upserts_inv (ops : List (PyObj × Nat)) : MtrInv (run_upserts ops) :=
  run_upserts_inv_aux ops mtrEmpty mtrInv_empty

lemma filter_key_length_le_one (l : List MtrRecord) (heat batch : String)
    (hp : l.Pairwise (fun a b => a.id ≠ b.id ∧ mtrKey a ≠ mtrKey b)) :
    (l.filter (fun r => r.heat_number = heat && r.batch_number = batch)).length ≤ 1 := by
  have hfp := hp.filter (fun r => r.heat_number = heat && r.batch_number = batch)
  cases hfl : l.filter (fun r => r.heat_number = heat && r.batch_number = batch) with
  | nil => simp
  | cons a t =>
    cases t with
    | nil => simp
    | cons b t2 =>
      exfalso
      rw [hfl, List.pairwise_cons] at hfp
      have hrel := hfp.1 b (List.mem_cons_self b t2)
      have hamem : a ∈ l.filter (fun r => r.heat_number = heat && r.batch_number = batch) := by
        rw [hfl]; exact List.mem_cons_self a _
      have hbmem : b ∈ l.filter (fun r => r.heat_number = heat && r.batch_number = batch) := by
        rw [hfl]; exact List.mem_cons_of_mem a (List.mem_cons_self b t2)
      have ha := List.of_mem_filter hamem
      have hbf := List.of_mem_filter hbmem
      simp only [Bool.and_eq_true, decide_eq_true_eq] at ha hbf
      exact hrel.2 (by unfold mtrKey; rw [ha.1, ha.2, hbf.1, hbf.2])

/-- C4: any sequence of upserts starting from the empty table leaves at most
one record per (heat, batch) key; and two upserts with differing (trimmed)
keys create two distinct records. -/
theorem upsert_key_uniqueness :
    (∀ (ops : List (PyObj × Nat)) (heat batch : String),
      ((run_upserts ops).records.filter
        (fun r => r.heat_number = heat && r.batch_number = batch)).length ≤ 1)
    ∧ (∀ (h1 b1 h2 b2 : String) (t₁ t₂ : Nat),
        pyStrip h1 ≠ "" → pyStrip b1 ≠ "" →
        pyStrip h2 ≠ "" → pyStrip b2 ≠ "" →
        (pyStrip h1, pyStrip b1) ≠ (pyStrip h2, pyStrip b2) →
        (run_upserts [(keyPayload h1 b1, t₁), (keyPayload h2 b2, t₂)]).records =
          [mtr_values 2 (pyStrip h2) (pyStrip b2) (keyEntries h2 b2) t₂,
           mtr_values 1 (pyStrip h1) (pyStrip b1) (keyEntries h1 b1) t₁]) := by
  constructor
  · intro ops heat batch
    exact filter_key_length_le_one _ heat batch (run_upserts_inv ops).2
  · intro h1 b1 h2 b2 t₁ t₂ hH1 hB1 hH2 hB2 hkne
    have hs1 : upsert_from_payload mtrEmpty t₁ (keyPayload h1 b1) =
        ({ records := [mtr_values 1 (pyStrip h1) (pyStrip b1) (keyEntries h1 b1) t₁],
           nextId := 2 },
         .ok { id := 1, operation := "created" }) := by
      have := (upsert_valid_cases mtrEmpty t₁ (keyEntries h1 b1) (pyStrip h1)
        (pyStrip b1)
        (by rw [keyEntries_get_heat, keyString_str (ne_empty_of_pyStrip hH1)])
        (by rw [keyEntries_get_batch, keyString_str (ne_empty_of_pyStrip hB1)])
        hH1 hB1).2 rfl
      simpa [keyPayload, mtrEmpty] using this
    have hsearch : mtr_search
        ({ records := [mtr_values 1 (pyStrip h1) (pyStrip b1) (keyEntries h1 b1) t₁],
           nextId := 2 } : MtrState) (pyStrip h2) (pyStrip b2) = none := by
      rw [mtr_search_none_iff]
      intro r hr hc
      rcases List.mem_cons.mp hr with h | h
      · rw [h] at hc
        exact hkne (Prod.ext hc.1 hc.2)
      · exact absurd h (List.not_mem_nil r)
    have hs2 : upsert_from_payload
        ({ records := [mtr_values 1 (pyStrip h1) (pyStrip b1) (keyEntries h1 b1) t₁],
           nextId := 2 } : MtrState) t₂ (keyPayload h2 b2) =
        ({ records := [mtr_values 2 (pyStrip h2) (pyStrip b2) (keyEntries h2 b2) t₂,
            mtr_values 1 (pyStrip h1) (pyStrip b1) (keyEntries h1 b1) t₁],
           nextId := 3 },
         .ok { id := 2, operation := "created" }) := by
      have := (upsert_valid_cases _ t₂ (keyEntries h2 b2) (pyStrip h2) (pyStrip b2)
        (by rw [keyEntries_get_heat, keyString_str (ne_empty_of_pyStrip hH2)])
        (by rw [keyEntries_get_batch, keyString_str (ne_empty_of_pyStrip hB2)])
        hH2 hB2).2 hsearch
      rw [keyPayload, this]
    show ([(keyPayload h1 b1, t₁), (keyPayload h2 b2, t₂)].foldl
      apply_upsert mtrEmpty).records = _
    rw [List.foldl_cons, List.foldl_cons, List.foldl_nil]
    unfold apply_upsert
    rw [show (upsert_from_payload mtrEmpty t₁ (keyPayload h1 b1)).1 =
        ({ records := [mtr_values 1 (pyStrip h1) (pyStrip b1) (keyEntries h1 b1) t₁],
           nextId := 2 } : MtrState) from by rw [hs1], hs2]

/-- Witness for C4: two same-heat, different-batch upserts produce two
records. -/
theorem upsert_key_uniqueness_witness :
    (run_upserts [(keyPayload "H1" "B1", 1), (keyPayload "H1" "B2", 2)]).records =
      [mtr_values 2 "H1" "B2" (keyEntries "H1" "B2") 2,
       mtr_values 1 "H1" "B1" (keyEntries "H1" "B1") 1] := by
  have hw := upsert_key_uniqueness.2 "H1" "B1" "H1" "B2" 1 2
    (by decide) (by decide) (by decide) (by decide) (by decide)
  simpa using hw

/-! ### The inventory import wizard -/

/-- Insert into an ordered dict: an existing binding of the key is replaced in
place, a new key is appended (Python dict insertion-order semantics). -/
def dict_insert {κ : Type} [DecidableEq κ] (es : List (κ × PyVal)) (k : κ)
    (v : PyVal) : List (κ × PyVal) :=
  if es.any (fun e => e.1 = k) then
    es.map (fun e => if e.1 = k then (k, v) else e)
  else es ++ [(k, v)]

/-- A parsed row: the ordered dict handed back by `csv.DictReader` /
the XLSX loop. The key `none` is the `DictReader` rest key (`restkey=None`)
holding overflow cells. -/
abbrev CsvRow := List (Option String × PyVal)

/-- The dict `DictReader` builds for one physical row: `dict(zip(fieldnames,
row))`, padded with `restval=None` when the row is short, with overflow cells
under the `None` rest key when it is long. -/
def csv_dict (fieldnames : List String) (line : List String) : CsvRow :=
  let base := (List.zip fieldnames line).foldl
    (fun d e => dict_insert d (some e.1) (PyVal.str e.2)) []
  if line.length < fieldnames.length then
    (fieldnames.drop line.length).foldl
      (fun d k => dict_insert d (some k) PyVal.none) base
  else if fieldnames.length < line.length then
    dict_insert base none (PyVal.strlist (line.drop fieldnames.length))
  else base

/-- `any(row.values())`: does some value of the row dict have a truthy
value? -/
def row_has_value (row : CsvRow) : Bool :=
  row.any (fun e => pyTruthy e.2)

/-- Embedding of `_read_csv` (models.py lines 376–380) from the point where
the `csv` module has lexed the decoded text into cell rows: the first
physical row is the header (`DictReader.fieldnames`), completely empty
physical rows (blank lines) are skipped by the reader, and the wizard keeps
exactly the dicts with some truthy value. -/
def read_csv (cells : List (List String)) : List CsvRow :=
  match cells with
  | [] => []
  | fieldnames :: body =>
    ((body.filter (fun l => !l.isEmpty)).map (csv_dict fieldnames)).filter
      row_has_value

/-- Headers of the first sheet row: `str(h).strip() if h is not None else ""`
(models.py line 393). -/
def xlsx_headers (hr : List PyVal) : List String :=
  hr.map (fun h => match h with
    | PyVal.none => ""
    | v => pyStrip (pyStr v))

/-- One XLSX data row zipped positionally against the headers; cells beyond
the row's length become `""` (models.py line 398). -/
def xlsx_row (headers : List String) (line : List PyVal) : CsvRow :=
  (List.range headers.length).foldl
    (fun d idx => dict_insert d (some (headers.getD idx ""))
      (line.getD idx (PyVal.str ""))) []

/-- Embedding of `_read_xlsx` (models.py lines 382–400) from the point where
openpyxl has produced the value rows of the active sheet: no rows yields an
empty list; otherwise the first row is headers and a data row survives only
when `any(line)` holds (some truthy cell). -/
def read_xlsx (rows : List (List PyVal)) : List CsvRow :=
  match rows with
  | [] => []
  | hr :: body =>
    (body.filter (fun line => line.any pyTruthy)).map (xlsx_row (xlsx_headers hr))

/-- An uploaded binary, modelled at the boundary where the parsing libraries
hand rows to the repository's code: the same bytes expose a CSV cell table
(what `csv.reader` would yield on the decoded text with the configured
delimiter) and a sheet table (what `openpyxl`'s `iter_rows(values_only=True)`
would yield); the filename extension selects which view is consumed. -/
structure FileData where
  csvTable : List (List String)
  sheetRows : List (List PyVal)
deriving DecidableEq, Repr

/-- The wizard's fields (`InventoryImportWizard`, models.py lines 247–254);
`file_data = none` models a falsy binary field, `file_name = ""` a falsy
name. `delimiter` and `has_header` are carried but the delimiter only
affects the library-side lexing already folded into `FileData`, and
`has_header` is never read by the source. -/
structure ImportWizard where
  file_data : Option FileData
  file_name : String
  delimiter : String
  has_header : Bool
deriving DecidableEq, Repr

/-- Python `s.endswith(post)` on the modelled strings. -/
def strEndsWith (s post : String) : Bool :=
  List.isSuffixOf post.data s.data

/-- Embedding of `_read_rows` (models.py lines 367–374): dispatch on the
lower-cased filename extension; anything but `.csv`/`.xlsx` is a
`UserError`. -/
def read_rows (d : FileData) (file_name : String) : Except PyErr (List CsvRow) :=
  if strEndsWith (pyLower file_name) ".csv" then .ok (read_csv d.csvTable)
  else if strEndsWith (pyLower file_name) ".xlsx" then .ok (read_xlsx d.sheetRows)
  else .error (.userError "Only CSV and XLSX files are supported.")

/-- `str(x) if x not in (None, "") else False` — the boolean-like text
columns (models.py lines 304, 336–346). -/
def bool_like (v : PyVal) : Option String :=
  match v with
  | PyVal.none => none
  | PyVal.str "" => none
  | v => some (pyStr v)

/-- Hex digit for JSON escapes. -/
def hexDigitChar (n : Nat) : Char :=
  if n < 10 then Char.ofNat (48 + n) else Char.ofNat (87 + n)

/-- Four-digit hex rendering for `\uXXXX` escapes. -/
def hex4 (n : Nat) : String :=
  String.mk [hexDigitChar (n / 4096 % 16), hexDigitChar (n / 256 % 16),
    hexDigitChar (n / 16 % 16), hexDigitChar (n % 16)]

/-- `json.dumps` escaping of one character (`ensure_ascii=True`: quote,
backslash, the short control escapes, `\uXXXX` for other controls and all
non-ASCII, surrogate pairs beyond the BMP). -/
def json_escape_char (c : Char) : String :=
  if c = '"' then "\\\""
  else if c = '\\' then "\\\\"
  else if c = '\n' then "\\n"
  else if c = '\r' then "\\r"
  else if c = '\t' then "\\t"
  else if c.toNat = 8 then "\\b"
  else if c.toNat = 12 then "\\f"
  else if c.toNat < 32 then "\\u" ++ hex4 c.toNat
  else if c.toNat < 127 then String.singleton c
  else if c.toNat < 65536 then "\\u" ++ hex4 c.toNat
  else
    "\\u" ++ hex4 (55296 + (c.toNat - 65536) / 1024) ++
    "\\u" ++ hex4 (56320 + (c.toNat - 65536) % 1024)

/-- A JSON string literal. -/
def json_quote (s : String) : String :=
  "\"" ++ String.join (s.data.map json_escape_char) ++ "\""

/-- `json.dumps(value, default=str)` for one cell value: native JSON
encodings for scalars and lists, the `str(...)` fallback (quoted) for dates.
The float spelling follows `floatToString`. -/
def json_of_val : PyVal → String
  | PyVal.none => "null"
  | PyVal.bool b => if b then "true" else "false"
  | PyVal.int n => toString n
  | PyVal.float q => floatToString q
  | PyVal.str s => json_quote s
  | PyVal.date d => json_quote (dateToString d)
  | PyVal.strlist xs =>
    "[" ++ String.intercalate ", " (xs.map json_quote) ++ "]"

/-- A JSON object key: string keys verbatim, the `None` rest key serialised
as `"null"` (CPython's key coercion). -/
def json_key : Option String → String
  | some s => json_quote s
  | none => json_quote "null"

/-- `json.dumps(row, default=str)` on a row dict, with the default
separators. -/
def json_dumps_row (row : CsvRow) : String :=
  "\x7b" ++
    String.intercalate ", "
      (row.map (fun e => json_key e.1 ++ ": " ++ json_of_val e.2)) ++
  "\x7d"

/-- The normalized row `{_normalize_header(k): v for k, v in row.items()}`
(models.py line 270); the rest key `None` normalizes like the empty
string. -/
def normalized_row (row : CsvRow) : List (String × PyVal) :=
  row.foldl (fun d e => dict_insert d (normalize_header_key e.1) e.2) []

/-- One row of the `inventory` table (`InventoryRecord`, models.py lines
166–244), with the column values exactly as `_map_inventory_row` computes
them: raw payload values for Char columns, coerced floats/ints/dates,
boolean-like text columns, the stamped source file name and the serialized
raw row. -/
structure InvValues where
  date : Option PyDate
  location_code : PyVal
  item_no : PyVal
  quantity : Option ℚ
  unit_of_measure_code : PyVal
  document_no : PyVal
  wsi_variant_code : PyVal
  dimensions : PyVal
  lot_number : PyVal
  heat_number : PyVal
  slab_number : PyVal
  internal_bin : PyVal
  additional_notes : PyVal
  cost_amount_actual : Option ℚ
  description_2 : PyVal
  origin_code : PyVal
  picked : Option String
  cutting_plan_no : PyVal
  image_path : PyVal
  entry_type : PyVal
  document_type : PyVal
  drawing : PyVal
  yield_value : Option ℚ
  document_line_no : Option Int
  revision : PyVal
  laser_quality : PyVal
  unitcost_cwt : Option ℚ
  piece_no : PyVal
  variant_code : PyVal
  description : PyVal
  return_reason_code : PyVal
  serial_no : PyVal
  package_no : PyVal
  invoiced_quantity : Option ℚ
  inventory_by_location : Option ℚ
  inventory : Option ℚ
  expiration_date : Option PyDate
  remaining_quantity : Option ℚ
  shipped_qty_not_returned : Option ℚ
  reserved_quantity : Option ℚ
  qty_per_unit_of_measure : Option ℚ
  sales_amount_expected : Option ℚ
  sales_amount_actual : Option ℚ
  cost_amount_expected : Option ℚ
  cost_amount_non_invtbl : Option ℚ
  item_description : PyVal
  cost_amount_expected_acy : Option ℚ
  cost_amount_actual_acy : Option ℚ
  completely_invoiced : Option String
  cost_amount_non_invtbl_acy : Option ℚ
  assemble_to_order : Option String
  drop_shipment : Option String
  open_flag : Option String
  order_type : PyVal
  order_no : PyVal
  order_line_no : Option Int
  prod_order_comp_line_no : Option Int
  entry_no : Option Int
  project_no : PyVal
  project_task_no : PyVal
  source_type : PyVal
  source_no : PyVal
  source_description : PyVal
  source_order_no : PyVal
  grade : PyVal
  weight : Option ℚ
  posting_date : Option PyDate
  country_of_melt : PyVal
  country_of_manufacture : PyVal
  source_file : String
  raw_row_data : String
deriving DecidableEq, Repr

/-- Embedding of `_map_inventory_row` (models.py lines 285–365). `file_name`
is the wizard's `self.file_name`; `n` is the normalized dict; `row` the raw
row kept in `raw_row_data`. -/
def map_inventory_row (file_name : String) (n : List (String × PyVal))
    (row : CsvRow) : InvValues :=
  { date := to_date (pyGet n "date")
    location_code := pyGet n "location_code"
    item_no := pyGet n "item_no"
    quantity := to_float (pyGet n "quantity")
    unit_of_measure_code := pyGet n "unit_of_measure_code"
    document_no := pyGet n "document_no"
    wsi_variant_code := pyGet n "wsi_variant_code"
    dimensions := pyGet n "dimensions"
    lot_number := pyOr (pyGet n "lot_no") (pyGet n "lot_number")
    heat_number := pyOr (pyGet n "heat_no") (pyGet n "heat_number")
    slab_number := pyOr (pyGet n "slab_no") (pyGet n "slab_number")
    internal_bin := pyGet n "internal_bin"
    additional_notes := pyGet n "additional_notes"
    cost_amount_actual := to_float (pyGet n "cost_amount_actual")
    description_2 := pyGet n "description_2"
    origin_code := pyGet n "origin_code"
    picked := bool_like (pyGet n "picked")
    cutting_plan_no := pyGet n "cutting_plan_no"
    image_path := pyGet n "image_path"
    entry_type := pyGet n "entry_type"
    document_type := pyGet n "document_type"
    drawing := pyGet n "drawing"
    yield_value := to_float (pyGet n "yield")
    document_line_no := to_int (pyGet n "document_line_no")
    revision := pyGet n "revision"
    laser_quality := pyGet n "laser_quality"
    unitcost_cwt := to_float (pyGet n "unitcost_cwt")
    piece_no := pyGet n "piece_no"
    variant_code := pyGet n "variant_code"
    description := pyGet n "description"
    return_reason_code := pyGet n "return_reason_code"
    serial_no := pyGet n "serial_no"
    package_no := pyGet n "package_no"
    invoiced_quantity := to_float (pyGet n "invoiced_quantity")
    inventory_by_location := to_float (pyGet n "inventory_by_location")
    inventory := to_float (pyGet n "inventory")
    expiration_date := to_date (pyGet n "expiration_date")
    remaining_quantity := to_float (pyGet n "remaining_quantity")
    shipped_qty_not_returned := to_float (pyGet n "shipped_qty_not_returned")
    reserved_quantity := to_float (pyGet n "reserved_quantity")
    qty_per_unit_of_measure := to_float (pyGet n "qty_per_unit_of_measure")
    sales_amount_expected := to_float (pyGet n "sales_amount_expected")
    sales_amount_actual := to_float (pyGet n "sales_amount_actual")
    cost_amount_expected := to_float (pyGet n "cost_amount_expected")
    cost_amount_non_invtbl := to_float (pyGet n "cost_amount_non_invtbl")
    item_description := pyGet n "item_description"
    cost_amount_expected_acy := to_float (pyGet n "cost_amount_expected_acy")
    cost_amount_actual_acy := to_float (pyGet n "cost_amount_actual_acy")
    completely_invoiced := bool_like (pyGet n "completely_invoiced")
    cost_amount_non_invtbl_acy := to_float (pyGet n "cost_amount_non_invtbl_acy")
    assemble_to_order := bool_like (pyGet n "assemble_to_order")
    drop_shipment := bool_like (pyGet n "drop_shipment")
    open_flag := bool_like (pyGet n "open")
    order_type := pyGet n "order_type"
    order_no := pyGet n "order_no"
    order_line_no := to_int (pyGet n "order_line_no")
    prod_order_comp_line_no := to_int (pyGet n "prod_order_comp_line_no")
    entry_no := to_int (pyGet n "entry_no")
    project_no := pyGet n "project_no"
    project_task_no := pyGet n "project_task_no"
    source_type := pyGet n "source_type"
    source_no := pyGet n "source_no"
    source_description := pyGet n "source_description"
    source_order_no := pyGet n "source_order_no"
    grade := pyGet n "grade"
    weight := to_float (pyGet n "weight")
    posting_date :=
      match to_date (pyGet n "posting_date") with
      | some d => some d
      | none => to_date (pyGet n "date")
    country_of_melt := pyGet n "country_of_melt"
    country_of_manufacture := pyGet n "country_of_manufacture"
    source_file := file_name
    raw_row_data := json_dumps_row row }

/-- The `inventory` table state: rows with their ids, and the sequence value
for the next fresh id (ids ascend across imports; `unlink` does not reset the
sequence). -/
structure InvState where
  records : List (Nat × InvValues)
  nextId : Nat
deriving DecidableEq, Repr

/-- The empty inventory table. -/
def invEmpty : InvState := { records := [], nextId := 1 }

/-- Embedding of `action_import` (models.py lines 256–283). On success it
deletes every existing inventory row (`Inventory.search([]).unlink()`),
bulk-creates one record per parsed row in file order, and reports the number
of created rows (the `Imported %s inventory rows.` count); each validation
failure raises before the `unlink`, so the error cases leave the table
untouched. -/
def action_import (w : ImportWizard) (inv : InvState) :
    InvState × Except PyErr Nat :=
  match w.file_data with
  | none => (inv, .error (.userError "Please upload a file."))
  | some d =>
    if w.file_name = "" then
      (inv, .error (.userError "Please upload a file."))
    else
      match read_rows d w.file_name with
      | .error e => (inv, .error e)
      | .ok rows =>
        if rows.isEmpty then
          (inv, .error (.userError "No data rows were found in the file."))
        else
          ({ records := (rows.map (fun row =>
                map_inventory_row w.file_name (normalized_row row) row)).enum.map
                (fun e => (inv.nextId + e.1, e.2)),
             nextId := inv.nextId + rows.length },
           .ok rows.length)

/-- C3: a successful import replaces the whole inventory table — afterwards
the table holds exactly the mapped rows of the uploaded file, numbered with
fresh ids in file order, the reported count is the number of inserted rows,
and (given the table invariant that stored ids are below the sequence value)
none of the previously stored rows survives. -/
theorem import_replaces_table :
    ∀ (w : ImportWizard) (inv : InvState) (st : InvState) (cnt : Nat),
      action_import w inv = (st, .ok cnt) →
      (∃ d rows, w.file_data = some d ∧ read_rows d w.file_name = .ok rows ∧
        st.records = (rows.map (fun row =>
          map_inventory_row w.file_name (normalized_row row) row)).enum.map
          (fun e => (inv.nextId + e.1, e.2)) ∧
        cnt = rows.length) ∧
      cnt = st.records.length ∧
      (∀ pr ∈ inv.records, pr.1 < inv.nextId → pr ∉ st.records) := by
  intro w inv st cnt h
  cases hd : w.file_data with
  | none =>
    simp only [action_import, hd] at h
    simp at h
  | some d =>
    simp only [action_import, hd] at h
    by_cases hnm : w.file_name = ""
    · rw [if_pos hnm] at h
      simp at h
    · rw [if_neg hnm] at h
      cases hr : read_rows d w.file_name with
      | error e =>
        simp only [hr] at h
        simp at h
      | ok rows =>
        simp only [hr] at h
        split at h
        · simp at h
        · rw [Prod.mk.injEq] at h
          obtain ⟨h1, h2⟩ := h
          have hcnt : cnt = rows.length := (Except.ok.inj h2).symm
          refine ⟨⟨d, rows, rfl, hr, ?_, hcnt⟩, ?_, ?_⟩
          · rw [← h1]
          · rw [← h1, hcnt]
            simp
          · intro pr hpr hlt hmem
            rw [← h1] at hmem
            obtain ⟨e2, -, he2⟩ := List.mem_map.mp hmem
            have hfst : pr.1 = inv.nextId + e2.1 := by rw [← he2]
            omega

/-- The cell table of inventory file A: three CSV data rows. -/
def fileA : FileData :=
  { csvTable := [["Heat No", "Lot No"], ["H1", "L1"], ["H2", "L2"], ["H3", "L3"]],
    sheetRows := [] }

/-- The cell table of inventory file B: two CSV data rows. -/
def fileB : FileData :=
  { csvTable := [["Heat No"], ["H9"], ["H8"]], sheetRows := [] }

/-- Wizard uploading file A. -/
def importWizA : ImportWizard :=
  { file_data := some fileA, file_name := "a.csv", delimiter := ",",
    has_header := true }

/-- Wizard uploading file B. -/
def importWizB : ImportWizard :=
  { file_data := some fileB, file_name := "b.csv", delimiter := ",",
    has_header := true }

/-- Witness for C3: importing file A (3 rows) and then file B (2 rows)
leaves exactly two inventory rows and none of A's rows. -/
theorem import_replaces_table_witness :
    2 = (action_import importWizB
        (action_import importWizA invEmpty).1).1.records.length ∧
    (∀ pr ∈ (action_import importWizA invEmpty).1.records,
      pr.1 < (action_import importWizA invEmpty).1.nextId →
      pr ∉ (action_import importWizB
        (action_import importWizA invEmpty).1).1.records) := by
  have hpair : action_import importWizB (action_import importWizA invEmpty).1 =
      ((action_import importWizB (action_import importWizA invEmpty).1).1,
        Except.ok 2) := by
    have h2 : (action_import importWizB (action_import importWizA invEmpty).1).2 =
        Except.ok 2 := rfl
    calc action_import importWizB (action_import importWizA invEmpty).1
        = ((action_import importWizB (action_import importWizA invEmpty).1).1,
           (action_import importWizB (action_import importWizA invEmpty).1).2) := rfl
    _ = ((action_import importWizB (action_import importWizA invEmpty).1).1,
          Except.ok 2) := by rw [h2]
  have h := import_replaces_table importWizB (action_import importWizA invEmpty).1
    (action_import importWizB (action_import importWizA invEmpty).1).1 2 hpair
  exact ⟨h.2.1, h.2.2⟩

/-! ### Blank-row filtering by the readers -/

lemma filter_map_comm {α β : Type} (f : α → β) (p : β → Bool) :
    ∀ (l : List α), (l.map f).filter p = (l.filter (fun x => p (f x))).map f := by
  intro l
  induction l with
  | nil => rfl
  | cons a t ih =>
    rw [List.map_cons, List.filter_cons, List.filter_cons]
    cases hp : p (f a) with
    | true => simp [hp, ih]
    | false => simp [hp, ih]

/-- Counterexample to C8 as stated: an XLSX data row whose only cell holds
the non-blank value `0` contributes no record — `any(line)` treats numeric
`0` as falsy. -/
theorem reader_zero_cell_counterexample :
    read_xlsx [[PyVal.str "Qty"], [PyVal.int 0]] = [] ∧
    PyVal.int 0 ≠ PyVal.none ∧ PyVal.int 0 ≠ PyVal.str "" := by
  refine ⟨rfl, by decide, by decide⟩

/-- C8 (amended): each reader emits one header-to-value mapping per kept data
row, in file order; a row is kept exactly when it carries a TRUTHY value —
for CSV, a dict value truthy after header-zipping (cells are strings, so
`"0"` counts and an all-blank row is dropped); for XLSX, a truthy cell (so a
row whose only non-blank cell is the number `0` is dropped). -/
theorem reader_blank_row_filtering :
    (∀ (fieldnames : List String) (body : List (List String)),
      read_csv (fieldnames :: body) =
        ((body.filter (fun l => !l.isEmpty)).filter
          (fun l => row_has_value (csv_dict fieldnames l))).map
          (csv_dict fieldnames))
    ∧ (∀ (hr : List PyVal) (body : List (List PyVal)),
        read_xlsx (hr :: body) =
          (body.filter (fun line => line.any pyTruthy)).map
            (xlsx_row (xlsx_headers hr)))
    ∧ read_csv [["Qty"], ["0"]] = [[(some "Qty", PyVal.str "0")]]
    ∧ read_csv [["A", "B"], ["", ""]] = []
    ∧ read_xlsx [[PyVal.str "A"], [PyVal.none, PyVal.str ""]] = []
    ∧ read_xlsx [[PyVal.str "Qty"], [PyVal.str "0"]] =
        [[(some "Qty", PyVal.str "0")]] := by
  refine ⟨?_, fun hr body => rfl, rfl, rfl, rfl, rfl⟩
  intro fieldnames body
  show ((body.filter (fun l => !l.isEmpty)).map (csv_dict fieldnames)).filter
      row_has_value = _
  rw [filter_map_comm (csv_dict fieldnames) row_has_value]

/-! ### Validation errors -/

/-- Does a key value make the upsert raise? The lookup string `(v or
"").strip()` either trims to empty (a `UserError`) or the truthy value is not
a string at all (an `AttributeError`). -/
def key_bad (v : PyVal) : Bool :=
  match pyOr v (PyVal.str "") with
  | .str s => pyStrip s == ""
  | _ => true

/-- A key value that is a (possibly defaulted) string trimming to empty; the
reading of "heat_number/batch_number trim to empty" in the claim. -/
def trims_to_empty (v : PyVal) : Bool :=
  match pyOr v (PyVal.str "") with
  | .str s => pyStrip s == ""
  | _ => false

/-- Does `upsert_from_payload` raise on this payload? Independent of the
table state and the clock. -/
def upsert_raises : PyObj → Bool
  | .val _ => true
  | .dict p => key_bad (pyGet p "heat_number") || key_bad (pyGet p "batch_number")

/-- Is an `Except` result an error? -/
def isErrorResult {ε α : Type} : Except ε α → Bool
  | .error _ => true
  | .ok _ => false

lemma keyString_cases (v : PyVal) :
    (∃ s, keyString v = .ok s ∧ key_bad v = (s == "")) ∨
    (keyString v = .error .attributeError ∧ key_bad v = true) := by
  cases h : pyOr v (PyVal.str "") with
  | str s =>
    exact Or.inl ⟨pyStrip s, by simp only [keyString, h], by simp only [key_bad, h]⟩
  | none =>
    exact Or.inr ⟨by simp only [keyString, h], by simp only [key_bad, h]⟩
  | bool b =>
    exact Or.inr ⟨by simp only [keyString, h], by simp only [key_bad, h]⟩
  | int n =>
    exact Or.inr ⟨by simp only [keyString, h], by simp only [key_bad, h]⟩
  | float q =>
    exact Or.inr ⟨by simp only [keyString, h], by simp only [key_bad, h]⟩
  | date d =>
    exact Or.inr ⟨by simp only [keyString, h], by simp only [key_bad, h]⟩
  | strlist xs =>
    exact Or.inr ⟨by simp only [keyString, h], by simp only [key_bad, h]⟩

lemma upsert_error_characterization (s : MtrState) (now : Nat) (payload : PyObj) :
    isErrorResult (upsert_from_payload s now payload).2 = upsert_raises payload ∧
    (isErrorResult (upsert_from_payload s now payload).2 = true →
      (upsert_from_payload s now payload).1 = s) := by
  cases payload with
  | val v => exact ⟨rfl, fun _ => rfl⟩
  | dict p =>
    rcases keyString_cases (pyGet p "heat_number") with ⟨hs, hkh, hbh⟩ | ⟨hkh, hbh⟩
    · rcases keyString_cases (pyGet p "batch_number") with ⟨bs, hkb, hbb⟩ | ⟨hkb, hbb⟩
      · simp only [upsert_from_payload, hkh, hkb, upsert_raises, hbh, hbb]
        by_cases hemp : hs = "" ∨ bs = ""
        · rw [if_pos (by simpa [Bool.or_eq_true, decide_eq_true_eq] using hemp)]
          refine ⟨?_, fun _ => rfl⟩
          rcases hemp with hemp | hemp <;> simp [isErrorResult, hemp]
        · push_neg at hemp
          rw [if_neg (by simp [hemp.1, hemp.2])]
          cases hex : mtr_search s hs bs with
          | some ex =>
            refine ⟨?_, ?_⟩
            · simp [isErrorResult, hemp.1, hemp.2]
            · intro hfalse
              simp [isErrorResult] at hfalse
          | none =>
            refine ⟨?_, ?_⟩
            · simp [isErrorResult, hemp.1, hemp.2]
            · intro hfalse
              simp [isErrorResult] at hfalse
      · simp only [upsert_from_payload, hkh, hkb, upsert_raises, hbh, hbb]
        exact ⟨by simp [isErrorResult], by simp⟩
    · simp only [upsert_from_payload, hkh, upsert_raises, hbh]
      exact ⟨by simp [isErrorResult], by simp⟩

/-- Payload refuting the C5 "iff": a mapping whose `heat_number` is the
truthy non-string `5`. -/
def c5Entries : List (String × PyVal) :=
  [("heat_number", PyVal.int 5), ("batch_number", PyVal.str "B1")]

/-- Counterexample to C5 as stated: this payload IS a mapping and neither key
value trims to empty, yet the upsert raises (an `AttributeError` from calling
`.strip()` on the integer), so "upsert raises iff the payload is not a
mapping or the keys trim to empty" fails. -/
theorem validation_errors_counterexample :
    (upsert_from_payload mtrEmpty 0 (PyObj.dict c5Entries)).2 =
      .error PyErr.attributeError ∧
    trims_to_empty (pyGet c5Entries "heat_number") = false ∧
    trims_to_empty (pyGet c5Entries "batch_number") = false := by
  exact ⟨rfl, by decide, by decide⟩

/-- C5 (amended): upsert raises exactly when the payload is not a mapping or
a key value is "bad" — a string (or falsy value) trimming to empty raises the
validation `UserError`, while a truthy non-string raises a type error instead
of a validation error — and every raising call leaves the MTR table
unchanged. The import raises with no inventory change when no file or
filename is supplied, when the lower-cased filename ends in neither `.csv`
nor `.xlsx`, and when the reader yields zero data rows. -/
theorem validation_errors :
    (∀ (s : MtrState) (now : Nat) (payload : PyObj),
      isErrorResult (upsert_from_payload s now payload).2 = upsert_raises payload)
    ∧ (∀ (s : MtrState) (now : Nat) (payload : PyObj),
        isErrorResult (upsert_from_payload s now payload).2 = true →
        (upsert_from_payload s now payload).1 = s)
    ∧ (∀ (w : ImportWizard) (inv : InvState),
        (w.file_data = none ∨ w.file_name = "") →
        action_import w inv = (inv, .error (.userError "Please upload a file.")))
    ∧ (∀ (d : FileData) (nm : String),
        read_rows d nm = .error (.userError "Only CSV and XLSX files are supported.")
          ↔ (¬strEndsWith (pyLower nm) ".csv" = true ∧
             ¬strEndsWith (pyLower nm) ".xlsx" = true))
    ∧ (∀ (w : ImportWizard) (inv : InvState) (d : FileData) (e : PyErr),
        w.file_data = some d →
        read_rows d w.file_name = .error e →
        (action_import w inv).1 = inv ∧
        isErrorResult (action_import w inv).2 = true)
    ∧ (∀ (w : ImportWizard) (inv : InvState) (d : FileData),
        w.file_data = some d →
        read_rows d w.file_name = .ok [] →
        (action_import w inv).1 = inv ∧
        isErrorResult (action_import w inv).2 = true) := by
  refine ⟨fun s now payload => (upsert_error_characterization s now payload).1,
    fun s now payload => (upsert_error_characterization s now payload).2,
    ?_, ?_, ?_, ?_⟩
  · intro w inv hcond
    rcases hcond with h | h
    · simp only [action_import, h]
    · cases hd : w.file_data with
      | none => simp only [action_import, hd]
      | some d =>
        simp only [action_import, hd]
        rw [if_pos h]
  · intro d nm
    constructor
    · intro h
      unfold read_rows at h
      split at h
      · simp at h
      · split at h
        · simp at h
        · constructor <;> assumption
    · intro ⟨hc, hx⟩
      unfold read_rows
      rw [if_neg hc, if_neg hx]
  · intro w inv d e hd hre
    simp only [action_import, hd]
    by_cases hnm : w.file_name = ""
    · rw [if_pos hnm]
      exact ⟨rfl, rfl⟩
    · rw [if_neg hnm]
      simp [hre, isErrorResult]
  · intro w inv d hd hre
    simp only [action_import, hd]
    by_cases hnm : w.file_name = ""
    · rw [if_pos hnm]
      exact ⟨rfl, rfl⟩
    · rw [if_neg hnm]
      simp [hre, isErrorResult]

/-- A wizard whose binary field is falsy. -/
def noFileWizard : ImportWizard :=
  { file_data := none, file_name := "x.csv", delimiter := ",",
    has_header := true }

/-- A small one-data-row cell table. -/
def smallFile : FileData :=
  { csvTable := [["H"], ["1"]], sheetRows := [] }

/-- A CSV file containing only a header line. -/
def headerOnlyFile : FileData :=
  { csvTable := [["H"]], sheetRows := [] }

/-- The wizard uploading `headerOnlyFile`. -/
def headerOnlyWizard : ImportWizard :=
  { file_data := some headerOnlyFile, file_name := "a.csv", delimiter := ",",
    has_header := true }

/-! ### The latest-match join view -/

/-- Storage conversion of an ORM Char column: `None`/`False` become SQL NULL,
any other value is stored as its text form. Inventory Char columns receive
raw row values, so this is the value the view's join condition compares. -/
def char_column (v : PyVal) : Option String :=
  match v with
  | PyVal.none => none
  | PyVal.bool false => none
  | v => some (pyStr v)

/-- Sort key of the view's window `ORDER BY m.uploaded_at DESC NULLS LAST,
m.id DESC`: a NULL timestamp sorts below every set one, ties break on the
id. -/
def mtr_rank_key (r : MtrRecord) : Nat × Nat :=
  ((match r.uploaded_at with
    | some t => t + 1
    | none => 0), r.id)

/-- The rank-1 row of the `latest_mtr` CTE for one heat number: the key-maximal
MTR record among those sharing the heat number. -/
def latest_mtr_for (mtrs : List MtrRecord) (heat : String) : Option MtrRecord :=
  argmaxLex mtr_rank_key (mtrs.filter (fun m => m.heat_number = heat))

/-- The rank-1 lookup through the join condition
`i.heat_number = m.heat_number AND m.rn = 1`: a NULL inventory heat number
matches nothing. -/
def match_for (mtrs : List MtrRecord) (hcol : Option String) : Option MtrRecord :=
  match hcol with
  | none => none
  | some h => latest_mtr_for mtrs h

/-- One row of `mtr_inventory_join_report`: the inventory row's id and
attributes (the `inv_`-prefixed columns), the attached MTR record when
matched (all `mtr_`-prefixed columns, NULL as a block otherwise), and
`join_status`. -/
structure JoinedRow where
  id : Nat
  join_status : String
  inv : InvValues
  mtr : Option MtrRecord
deriving DecidableEq, Repr

/-- Embedding of the view body of `MtrInventoryJoinReport.init` (models.py
lines 515–640): one output row per inventory row, left-joined to the rank-1
MTR record of its heat number. -/
def join_report (invs : List (Nat × InvValues)) (mtrs : List MtrRecord) :
    List JoinedRow :=
  invs.map (fun e =>
    { id := e.1,
      join_status :=
        match match_for mtrs (char_column e.2.heat_number) with
        | none => "Missing MTR"
        | some _ => "Matched",
      inv := e.2,
      mtr := match_for mtrs (char_column e.2.heat_number) })

/-- C1: for every state of the two tables (with the primary-key fact that MTR
ids are distinct), the view has exactly one row per inventory record, in
order; a row whose heat number equals some MTR record's heat number is
`"Matched"` and carries the unique maximal record under (uploaded_at
descending, then id descending); a row with no equal-heat MTR record is
`"Missing MTR"` with every MTR attribute absent. -/
theorem join_report_one_row_latest_match :
    ∀ (invs : List (Nat × InvValues)) (mtrs : List MtrRecord),
      mtrs.Pairwise (fun a b => a.id ≠ b.id) →
      (join_report invs mtrs).length = invs.length ∧
      List.Forall₂ (fun (e : Nat × InvValues) (row : JoinedRow) =>
        row.id = e.1 ∧ row.inv = e.2 ∧
        ((∃ m ∈ mtrs, char_column e.2.heat_number = some m.heat_number) →
          row.join_status = "Matched" ∧
          ∃ m ∈ mtrs, row.mtr = some m ∧
            char_column e.2.heat_number = some m.heat_number ∧
            ∀ m2 ∈ mtrs, m2.heat_number = m.heat_number → m2 ≠ m →
              lexGt (mtr_rank_key m) (mtr_rank_key m2) = true) ∧
        ((¬∃ m ∈ mtrs, char_column e.2.heat_number = some m.heat_number) →
          row.join_status = "Missing MTR" ∧ row.mtr = none))
        invs (join_report invs mtrs) := by
  intro invs mtrs hids
  refine ⟨by simp [join_report], ?_⟩
  unfold join_report
  rw [List.forall₂_map_right_iff, List.forall₂_same]
  intro e he
  cases hcc : char_column e.2.heat_number with
  | none =>
    refine ⟨rfl, rfl, ?_, ?_⟩
    · intro ⟨m, hmem, hmeq⟩
      exact Option.noConfusion hmeq
    · intro hno
      exact ⟨rfl, rfl⟩
  | some hstr =>
    simp only [match_for]
    cases hlm : latest_mtr_for mtrs hstr with
    | none =>
      have hfil : mtrs.filter (fun m => m.heat_number = hstr) = [] :=
        (argmaxLex_eq_none mtr_rank_key _).mp hlm
      have hnomem : ∀ m ∈ mtrs, m.heat_number ≠ hstr := by
        intro m hmem heq
        have hq := List.filter_eq_nil_iff.mp hfil m hmem
        simp [heq] at hq
      refine ⟨trivial, trivial, ?_, ?_⟩
      · intro ⟨m, hmem, hmeq⟩
        exact absurd (Option.some.inj hmeq).symm (hnomem m hmem)
      · intro hno
        exact ⟨rfl, rfl⟩
    | some mbest =>
      obtain ⟨hbmem, hbmax⟩ := argmaxLex_spec mtr_rank_key _ mbest hlm
      rw [List.mem_filter] at hbmem
      have hbheat : mbest.heat_number = hstr := by
        have hq := hbmem.2
        simpa using hq
      refine ⟨trivial, trivial, ?_, ?_⟩
      · intro _
        refine ⟨rfl, mbest, hbmem.1, rfl, ?_, ?_⟩
        · rw [hbheat]
        · intro m2 hm2 hheat hne
          have hm2fil : m2 ∈ mtrs.filter (fun m => m.heat_number = hstr) := by
            rw [List.mem_filter]
            exact ⟨hm2, by simp [hheat, hbheat]⟩
          have hnogt := hbmax m2 hm2fil
          have hidne : m2.id ≠ mbest.id :=
            (hids.forall (fun a b hab => Ne.symm hab) hm2 hbmem.1 hne)
          have hkne : mtr_rank_key m2 ≠ mtr_rank_key mbest := by
            intro hk
            exact hidne (congrArg Prod.snd hk)
          exact lexGt_total hkne hnogt
      · intro hno
        exfalso
        exact hno ⟨mbest, hbmem.1, by rw [hbheat]⟩

/-- A fully-blank inventory row value, the base for concrete test rows. -/
def invBlank : InvValues :=
  { date := none
    location_code := PyVal.none
    item_no := PyVal.none
    quantity := none
    unit_of_measure_code := PyVal.none
    document_no := PyVal.none
    wsi_variant_code := PyVal.none
    dimensions := PyVal.none
    lot_number := PyVal.none
    heat_number := PyVal.none
    slab_number := PyVal.none
    internal_bin := PyVal.none
    additional_notes := PyVal.none
    cost_amount_actual := none
    description_2 := PyVal.none
    origin_code := PyVal.none
    picked := none
    cutting_plan_no := PyVal.none
    image_path := PyVal.none
    entry_type := PyVal.none
    document_type := PyVal.none
    drawing := PyVal.none
    yield_value := none
    document_line_no := none
    revision := PyVal.none
    laser_quality := PyVal.none
    unitcost_cwt := none
    piece_no := PyVal.none
    variant_code := PyVal.none
    description := PyVal.none
    return_reason_code := PyVal.none
    serial_no := PyVal.none
    package_no := PyVal.none
    invoiced_quantity := none
    inventory_by_location := none
    inventory := none
    expiration_date := none
    remaining_quantity := none
    shipped_qty_not_returned := none
    reserved_quantity := none
    qty_per_unit_of_measure := none
    sales_amount_expected := none
    sales_amount_actual := none
    cost_amount_expected := none
    cost_amount_non_invtbl := none
    item_description := PyVal.none
    cost_amount_expected_acy := none
    cost_amount_actual_acy := none
    completely_invoiced := none
    cost_amount_non_invtbl_acy := none
    assemble_to_order := none
    drop_shipment := none
    open_flag := none
    order_type := PyVal.none
    order_no := PyVal.none
    order_line_no := none
    prod_order_comp_line_no := none
    entry_no := none
    project_no := PyVal.none
    project_task_no := PyVal.none
    source_type := PyVal.none
    source_no := PyVal.none
    source_description := PyVal.none
    source_order_no := PyVal.none
    grade := PyVal.none
    weight := none
    posting_date := none
    country_of_melt := PyVal.none
    country_of_manufacture := PyVal.none
    source_file := ""
    raw_row_data := "" }

/-- An inventory row with heat number `"H1"` and one with no heat number. -/
def invRowH1 : InvValues := { invBlank with heat_number := PyVal.str "H1" }

/-- Two MTR records for heat `"H1"`, uploaded at times 10 and 20. -/
def joinMtrs : List MtrRecord :=
  [mtr_values 1 "H1" "B1" [] 10, mtr_values 2 "H1" "B2" [] 20]

/-- Witness for C1 at a concrete two-row state: the view has one row per
inventory record. -/
theorem join_report_one_row_latest_match_witness :
    (join_report [(1, invRowH1), (2, invBlank)] joinMtrs).length = 2 := by
  exact (join_report_one_row_latest_match [(1, invRowH1), (2, invBlank)] joinMtrs
    (by simp [List.pairwise_cons, joinMtrs, mtr_values])).1

/-- Witness for the amended C5: a non-dict payload leaves the table
unchanged; a wizard without a file, one with a `.txt` name and one whose file
has no data rows each fail with the table unchanged. -/
theorem validation_errors_witness :
    (upsert_from_payload mtrEmpty 0 (.val (PyVal.int 3))).1 = mtrEmpty ∧
    action_import noFileWizard invEmpty =
      (invEmpty, .error (.userError "Please upload a file.")) ∧
    read_rows smallFile "a.txt" =
      .error (.userError "Only CSV and XLSX files are supported.") ∧
    (action_import headerOnlyWizard invEmpty).1 = invEmpty := by
  refine ⟨validation_errors.2.1 mtrEmpty 0 (.val (PyVal.int 3)) rfl,
    validation_errors.2.2.1 noFileWizard invEmpty (Or.inl rfl),
    (validation_errors.2.2.2.1 smallFile "a.txt").mpr ⟨by decide, by decide⟩,
    (validation_errors.2.2.2.2.2 headerOnlyWizard invEmpty
      headerOnlyFile rfl rfl).1⟩

end MtrSpec
